import Mathlib

set_option maxRecDepth 8000

/-!
# Verification of the Tomasulo simulator core

A shallow embedding of the Python Tomasulo simulator
(`simulator.py`, `components/*.py`, `utils/*.py`) together with proofs
about the claims of the specification.

Conventions of the embedding:
* Register names `R<i>` are represented by their index `i : Nat`
  (the register file converts names to indices bijectively for valid
  names; all simulator claims only involve valid names).
* Python `None` is represented by `Option.none`; integer fields that may
  hold `None` in Python are `Option Int`.
* `print` side effects that the spec calls "warnings" are modelled as an
  event log (`LogEvent`) threaded through the state.
* Reservation-station and functional-unit object references are
  represented by the station's unique textual name, exactly as the
  source uses names as CDB tags.
* Code paths on which the Python source would raise an uncaught
  exception (e.g. arithmetic on `None` operands) are unreachable in the
  simulator's own runs; at those points the embedding uses a default
  value (`Option.getD 0`) and says so in a comment.
-/

/-- Opcodes of the fixed ISA (`components/instruction.py`). -/
inductive Op
  | ADD | SUB | MUL | DIV | LOAD | STORE
deriving DecidableEq, Repr, Inhabited

/-- `LATENCIES` from `utils/config.py`. -/
def Op.latency : Op → Nat
  | .ADD => 2
  | .SUB => 2
  | .MUL => 10
  | .DIV => 20
  | .LOAD => 5
  | .STORE => 5

/-- `NUM_REGISTERS` from `utils/config.py`. -/
def NUM_REGISTERS : Nat := 8

/-- `MEMORY_SIZE` from `utils/config.py`. -/
def MEMORY_SIZE : Nat := 1024

/-- An instruction of the loaded program (`components/instruction.py`),
with its four mutable timestamp fields.  Fields that are irrelevant for
a given opcode (e.g. `src2` of a `LOAD`) are never read by the
simulator, so they are plain fields defaulting to `0` rather than
options. -/
structure SimInstr where
  op : Op
  dest : Nat := 0
  src1 : Nat := 0
  src2 : Nat := 0
  offset : Int := 0
  base : Nat := 0
  issue_cycle : Option Nat := none
  start_cycle : Option Nat := none
  execute_complete_cycle : Option Nat := none
  write_result_cycle : Option Nat := none
deriving DecidableEq, Repr, Inhabited

/-- The four disjoint reservation-station pools
(`components/reservation_station.py`). -/
inductive RSKind
  | ALURS | MULDIVRS | LOADBUF | STOREBUF
deriving DecidableEq, Repr, Inhabited

/-- A reservation station (`components/reservation_station.py`).
`instr` is the index of the instruction the station carries (the Python
object reference `self.instruction`).  The Python field
`functional_unit` is only ever written with `None`, so it is omitted. -/
structure RS where
  name : String
  kind : RSKind
  busy : Bool := false
  op : Option Op := none
  vj : Option Int := none
  vk : Option Int := none
  qj : Option String := none
  qk : Option String := none
  dest : Option Nat := none
  instr : Option Nat := none
  offset : Option Int := none
  address : Option Int := none
  executing : Bool := false
  execution_cycles_left : Int := 0
deriving DecidableEq, Repr, Inhabited

/-- `ReservationStation.isReady` from the source. -/
def RS.isReady (rs : RS) : Bool :=
  rs.busy && !rs.executing && rs.qj.isNone && rs.qk.isNone

/-- `ReservationStation.clear` from the source.  Note the source does
not reset `offset` (nor, of course, `name`). -/
def RS.clear (rs : RS) : RS :=
  { rs with busy := false, op := none, vj := none, vk := none,
            qj := none, qk := none, dest := none, instr := none,
            address := none, executing := false, execution_cycles_left := 0 }

/-- Classes of functional units (`components/functional_unit.py`). -/
inductive FUKind
  | ALUU | MULDIVU | LOADSTOREU
deriving DecidableEq, Repr, Inhabited

/-- A functional unit.  `reservation_station` holds the bound station's
unique name (the Python object reference). -/
structure FU where
  name : String
  kind : FUKind
  busy : Bool := false
  reservation_station : Option String := none
  cycles_left : Int := 0
deriving DecidableEq, Repr, Inhabited

/-- The `supported_ops` table of each unit class. -/
def FUKind.supports : FUKind → Op → Bool
  | .ALUU, .ADD => true
  | .ALUU, .SUB => true
  | .MULDIVU, .MUL => true
  | .MULDIVU, .DIV => true
  | .LOADSTOREU, .LOAD => true
  | .LOADSTOREU, .STORE => true
  | _, _ => false

/-- `FunctionalUnit.can_accept`; the argument is the station's `op`
field, which may be `None` in Python (`None in [...]` is false). -/
def FU.canAccept (u : FU) (op : Option Op) : Bool :=
  (match op with
   | some o => u.kind.supports o
   | none => false) && !u.busy

/-- The common data bus (`components/common_data_bus.py`).  All three
fields are `None` after `clear`; `value` is the raw broadcast result,
which is `None` for a completed `STORE`. -/
structure CDB where
  reservation_station : Option String := none
  value : Option Int := none
  busy : Option Bool := none
deriving DecidableEq, Repr, Inhabited

/-- `CommonDataBus.broadcast`. -/
def CDB.broadcast (c : CDB) (t : String) (v : Option Int) : CDB × Bool :=
  if c.busy = some true then (c, false)
  else ({ reservation_station := some t, value := v, busy := some true }, true)

/-- The metrics accumulator (`utils/metrics.py`); the field name
`total_instrcutions` keeps the source's spelling. -/
structure Metrics where
  total_cycles : Nat := 0
  total_instrcutions : Nat := 0
  completed_instructions : Nat := 0
  rs_busy_cycles : Nat := 0
  total_rs_cycles : Nat := 0
  ls_buffer_busy_cycles : Nat := 0
  total_ls_buffer_cycles : Nat := 0
  structural_hazard_stalls : Nat := 0
deriving DecidableEq, Repr, Inhabited

/-- Warnings printed by the source, modelled as log events. -/
inductive LogEvent
  | memReadOutOfRange (address : Int)
  | memWriteOutOfRange (address : Int)
  | divisionByZero (instr : Option Nat)
deriving DecidableEq, Repr

/-- The whole simulator state (`Simulator.__init__` plus the loaded
program).  `insts` carries the instructions with their timestamp
fields; stations reference them by index. -/
structure SimState where
  memory : List Int
  registers : List Int
  regStatus : List (Option String)
  stations : List RS
  units : List FU
  cdb : CDB
  metrics : Metrics
  insts : List SimInstr
  pc : Nat
  cycle : Nat
  log : List LogEvent
deriving DecidableEq, Repr, Inhabited

/-! ## List helpers

The Python source mutates list elements in place and searches lists
linearly; these two helpers are the functional counterparts. -/

/-- Replace the element at index `n` by `f` of it (identity when out of
range), the functional form of a Python in-place element mutation. -/
def modifyIdx : List α → Nat → (α → α) → List α
  | [], _, _ => []
  | a :: l, 0, f => f a :: l
  | a :: l, n + 1, f => a :: modifyIdx l n f

/-- Index of the first element satisfying `p` — the Python
`for x in xs: if p(x): return x` search pattern, returning the index. -/
def firstIdxWhere (p : α → Bool) : List α → Option Nat
  | [] => none
  | a :: l => if p a then some 0 else (firstIdxWhere p l).map (· + 1)

/-! ## Memory (`components/memory.py`) -/

/-- `Memory.read`: out-of-range addresses log a warning and read as 0. -/
def memRead (mem : List Int) (address : Int) : Int × List LogEvent :=
  if address < 0 ∨ (MEMORY_SIZE : Int) ≤ address then
    (0, [.memReadOutOfRange address])
  else
    (mem.getD address.toNat 0, [])

/-- `Memory.write`: out-of-range addresses log a warning and the write
is dropped. -/
def memWrite (mem : List Int) (address : Int) (v : Int) : List Int × List LogEvent :=
  if address < 0 ∨ (MEMORY_SIZE : Int) ≤ address then
    (mem, [.memWriteOutOfRange address])
  else
    (mem.set address.toNat v, [])

/-! ## Register file (`components/register_file.py`)

Register names `R<i>` are represented by the index `i`. -/

/-- `RegisterFile.read` (for a valid register name). -/
def regRead (s : SimState) (r : Nat) : Int :=
  s.registers.getD r 0

/-- `RegisterFile.get_status` (for a valid register name). -/
def statusOf (s : SimState) (r : Nat) : Option String :=
  s.regStatus.getD r none

/-! ## Reservation stations (`components/reservation_station.py`) -/

/-- Which pool serves an opcode (`get_available_station`'s dispatch). -/
def Op.poolKind : Op → RSKind
  | .ADD => .ALURS
  | .SUB => .ALURS
  | .MUL => .MULDIVRS
  | .DIV => .MULDIVRS
  | .LOAD => .LOADBUF
  | .STORE => .STOREBUF

/-- `ReservationStations.get_available_station`: the first non-busy
station of the opcode's pool, as an index into `all_stations`
(the pools are contiguous slices of `all_stations`, so searching the
whole list filtered by pool kind is the same linear search). -/
def getAvailableStation (stations : List RS) (op : Op) : Option Nat :=
  firstIdxWhere (fun rs => rs.kind = op.poolKind && !rs.busy) stations

/-- `ReservationStations.get_station_by_name`, as an index. -/
def findStationIdx (stations : List RS) (t : String) : Option Nat :=
  firstIdxWhere (fun rs => rs.name = t) stations

/-- The per-station body of `ReservationStations.update_from_cdb`: if
an operand slot waits on the broadcast tag, capture the raw broadcast
value. -/
def snoopRS (t : String) (v : Option Int) (st : RS) : RS :=
  let st := if st.qj = some t then { st with qj := none, vj := v } else st
  if st.qk = some t then { st with qk := none, vk := v } else st

/-- `ReservationStations.update_from_cdb`: every station whose `qj`/`qk`
waits on the broadcast tag captures the raw broadcast value. -/
def updateFromCdb (stations : List RS) (t : String) (v : Option Int) : List RS :=
  stations.map (snoopRS t v)

/-! ## Functional units (`components/functional_unit.py`) -/

/-- `FunctionalUnits.get_available`, as an index into `all_units`. -/
def getAvailableUnit (units : List FU) (op : Option Op) : Option Nat :=
  firstIdxWhere (fun u => u.canAccept op) units

/-- Latency of a station's `op` field.  In the source a `None` op would
raise a `KeyError`; `start_execution` is only reached through
`can_accept`, which guarantees a real opcode. -/
def latencyOfOpt : Option Op → Int
  | some o => (o.latency : Int)
  | none => 0

/-- The `compute_result` methods of `ALU`, `MulDiv` and `LoadStore`.
Operand fields are guaranteed non-`None` when execution completes in
the simulator's own runs; Python would raise on `None`, the embedding
reads them with `Option.getD 0`.  The catch-all branches correspond to
the `raise ValueError` paths for a mismatched opcode, unreachable
through `can_accept` dispatch. -/
def computeResult (k : FUKind) (rs : RS) (mem : List Int) :
    Option Int × List Int × List LogEvent :=
  match k with
  | .ALUU =>
    match rs.op with
    | some .ADD => (some (rs.vj.getD 0 + rs.vk.getD 0), mem, [])
    | some .SUB => (some (rs.vj.getD 0 - rs.vk.getD 0), mem, [])
    | _ => (some 0, mem, [])
  | .MULDIVU =>
    match rs.op with
    | some .MUL => (some (rs.vj.getD 0 * rs.vk.getD 0), mem, [])
    | some .DIV =>
      if rs.vk.getD 0 = 0 then
        (some 0, mem, [.divisionByZero rs.instr])
      else
        (some (Int.fdiv (rs.vj.getD 0) (rs.vk.getD 0)), mem, [])
    | _ => (some 0, mem, [])
  | .LOADSTOREU =>
    match rs.op with
    | some .LOAD =>
      let rd := memRead mem (rs.address.getD 0)
      (some rd.1, mem, rd.2)
    | some .STORE =>
      let wr := memWrite mem (rs.address.getD 0) (rs.vk.getD 0)
      (none, wr.1, wr.2)
    | _ => (some 0, mem, [])

/-- `FunctionalUnit.tick` for the unit at index `k`: decrement the
countdowns, and on reaching zero compute the result, release the unit
and the station's `executing` flag, and emit `(station name, result)`.
The station bound to a busy unit is looked up by its unique name (the
Python object reference). -/
def fuTickUnit (s : SimState) (k : Nat) : SimState × Option (String × Option Int) :=
  match s.units.get? k with
  | none => (s, none)
  | some u =>
    if !u.busy then (s, none)
    else
      let cl := u.cycles_left - 1
      let sIdx? := match u.reservation_station with
        | some n => findStationIdx s.stations n
        | none => none
      let stations₁ := match sIdx? with
        | some j => modifyIdx s.stations j
            (fun rs => { rs with execution_cycles_left := rs.execution_cycles_left - 1 })
        | none => s.stations
      if 0 < cl then
        ({ s with stations := stations₁,
                  units := modifyIdx s.units k (fun u => { u with cycles_left := cl }) },
         none)
      else
        match sIdx? with
        | none =>
          -- unreachable: a busy unit always holds a live station reference
          ({ s with stations := stations₁,
                    units := modifyIdx s.units k
                      (fun u => { u with busy := false, cycles_left := cl,
                                         reservation_station := none }) },
           none)
        | some j =>
          let rs := (stations₁.getD j default)
          let cr := computeResult u.kind rs s.memory
          let stations₂ := modifyIdx stations₁ j (fun rs => { rs with executing := false })
          ({ s with stations := stations₂,
                    memory := cr.2.1,
                    log := s.log ++ cr.2.2,
                    units := modifyIdx s.units k
                      (fun u => { u with busy := false, cycles_left := cl,
                                         reservation_station := none }) },
           some (rs.name, cr.1))

/-- `FunctionalUnits.tick`'s loop over the unit indices `ks`, threading
the state and collecting completions in traversal order. -/
def fuTickFrom (s : SimState) : List Nat → SimState × List (String × Option Int)
  | [] => (s, [])
  | k :: ks =>
    let step := fuTickUnit s k
    let rest := fuTickFrom step.1 ks
    (rest.1, step.2.toList ++ rest.2)

/-- `FunctionalUnits.tick`: advance every unit in traversal order and
collect the completions. -/
def fuTickAll (s : SimState) : SimState × List (String × Option Int) :=
  fuTickFrom s (List.range s.units.length)

/-! ## The scheduler (`simulator.py`) -/

/-- Is the op one that writes a register result at write-back
(the source's `rs.op in ['ADD','SUB','MUL','DIV','LOAD']`)? -/
def isRegWriteOp : Option Op → Bool
  | some .ADD => true
  | some .SUB => true
  | some .MUL => true
  | some .DIV => true
  | some .LOAD => true
  | _ => false

/-- Stamp `execute_complete_cycle` and `write_result_cycle` on the
instruction referenced by a completing station. -/
def stampComplete (insts : List SimInstr) (i : Option Nat) (c : Nat) : List SimInstr :=
  match i with
  | some idx => modifyIdx insts idx
      (fun ins => { ins with execute_complete_cycle := some c, write_result_cycle := some c })
  | none => insts

/-- Stamp `start_cycle` on the instruction referenced by a station that
starts executing. -/
def stampStart (insts : List SimInstr) (i : Option Nat) (c : Nat) : List SimInstr :=
  match i with
  | some idx => modifyIdx insts idx (fun ins => { ins with start_cycle := some c })
  | none => insts

/-- The body of `Simulator.write_back` after arbitration: broadcast the
winning completion on the CDB, stamp the instruction, update the
register file (unless `STORE`), snoop the CDB into every station, clear
the winning station and count it completed — in the source's order. -/
def applyCompletion (s : SimState) (t : String) (v : Option Int) : SimState :=
  let s := { s with cdb := (s.cdb.broadcast t v).1 }
  match findStationIdx s.stations t with
  | none => s
  | some j =>
    match s.stations.get? j with
    | none => s  -- unreachable: findStationIdx returns a valid index
    | some rs =>
      let s := { s with insts := stampComplete s.insts rs.instr s.cycle }
      let s :=
        if isRegWriteOp rs.op then
          match rs.dest with
          | some d =>
            let s := { s with registers := s.registers.set d (v.getD 0) }
            if statusOf s d = some t then
              { s with regStatus := s.regStatus.set d none }
            else s
          | none => s  -- unreachable: register-writing stations carry a destination
        else s
      let s := { s with stations := updateFromCdb s.stations t v }
      let s := { s with stations := modifyIdx s.stations j RS.clear }
      { s with metrics :=
          { s.metrics with
              completed_instructions := s.metrics.completed_instructions + 1 } }

/-- `Simulator.write_back`: clear the CDB, tick all functional units,
and process only the first completion (`results[0]`). -/
def writeBack (s : SimState) : SimState :=
  let s := { s with cdb := {} }
  let ticked := fuTickAll s
  match ticked.2 with
  | [] => ticked.1
  | (t, v) :: _ => applyCompletion ticked.1 t v

/-- One iteration of `Simulator.execute`'s station loop for the station
at index `j`: if it is ready and a matching unit is free, bind them,
stamp `start_cycle`, and freeze the effective address for memory ops. -/
def executeStep (s : SimState) (j : Nat) : SimState :=
  match s.stations.get? j with
  | none => s
  | some rs =>
    if rs.isReady && !rs.executing then
      match getAvailableUnit s.units rs.op with
      | none => s
      | some k =>
        let lat := latencyOfOpt rs.op
        let units' := modifyIdx s.units k
          (fun u => { u with busy := true, reservation_station := some rs.name,
                             cycles_left := lat })
        let stations' := modifyIdx s.stations j
          (fun rs => { rs with executing := true, execution_cycles_left := lat })
        let insts' := stampStart s.insts rs.instr s.cycle
        let stations'' :=
          if rs.op = some .LOAD ∨ rs.op = some .STORE then
            modifyIdx stations' j
              (fun rs => { rs with address := some (rs.vj.getD 0 + rs.offset.getD 0) })
          else stations'
        { s with units := units', stations := stations'', insts := insts' }
    else s

/-- `Simulator.execute`'s loop over the station indices `ks`. -/
def executeFrom (s : SimState) : List Nat → SimState
  | [] => s
  | k :: ks => executeFrom (executeStep s k) ks

/-- `Simulator.execute`: traverse all stations in pool order. -/
def execute (s : SimState) : SimState :=
  executeFrom s (List.range s.stations.length)

/-- One iteration of `Simulator.issue`'s operand-capture loop for the
`(src, 'qj', 'vj')` row: a pending source records the producer tag in
`qj`, an available one copies the register value into `vj`. -/
def captureJ (s : SimState) (src : Nat) (rs : RS) : RS :=
  match statusOf s src with
  | some tg => { rs with qj := some tg }
  | none => { rs with qj := none, vj := some (regRead s src) }

/-- The `(src, 'qk', 'vk')` row of the same loop. -/
def captureK (s : SimState) (src : Nat) (rs : RS) : RS :=
  match statusOf s src with
  | some tg => { rs with qk := some tg }
  | none => { rs with qk := none, vk := some (regRead s src) }

/-- The per-opcode station binding of `Simulator.issue`, after a free
station at index `j` was found for `inst = insts[pc]`:
mark it busy, capture operands from the register file, and rename the
destination register (except for `STORE`). -/
def issueInto (s : SimState) (j : Nat) (inst : SimInstr) : SimState :=
  match s.stations.get? j with
  | none => s  -- unreachable: getAvailableStation returns a valid index
  | some rs0 =>
    let rs0 := { rs0 with busy := true, op := some inst.op, instr := some s.pc }
    match inst.op with
    | .ADD | .SUB | .MUL | .DIV =>
      let rs1 := captureK s inst.src2 (captureJ s inst.src1 { rs0 with dest := some inst.dest })
      { s with stations := modifyIdx s.stations j (fun _ => rs1),
               regStatus := s.regStatus.set inst.dest (some rs0.name) }
    | .LOAD =>
      let rs1 := { captureJ s inst.base { rs0 with dest := some inst.dest } with
                     offset := some inst.offset }
      { s with stations := modifyIdx s.stations j (fun _ => rs1),
               regStatus := s.regStatus.set inst.dest (some rs0.name) }
    | .STORE =>
      let rs1 := { captureK s inst.src1 (captureJ s inst.base rs0) with
                     offset := some inst.offset }
      { s with stations := modifyIdx s.stations j (fun _ => rs1) }

/-- `Simulator.issue`: returns whether an instruction was issued,
incrementing the structural-hazard counter and leaving everything else
untouched when no station of the right pool is free. -/
def issue (s : SimState) : Bool × SimState :=
  if s.pc < s.insts.length then
    let inst := s.insts.getD s.pc default
    match getAvailableStation s.stations inst.op with
    | none =>
      (false,
       { s with metrics :=
           { s.metrics with
               structural_hazard_stalls := s.metrics.structural_hazard_stalls + 1 } })
    | some j =>
      let s := { s with insts :=
                  modifyIdx s.insts s.pc (fun ins => { ins with issue_cycle := some s.cycle }) }
      let s := issueInto s j inst
      (true, { s with pc := s.pc + 1 })
  else (false, s)

/-- `Metrics.update_rs_occupancy`. -/
def updateRsOccupancy (m : Metrics) (stations : List RS) : Metrics :=
  let pool := stations.filter (fun rs => rs.kind = .ALURS || rs.kind = .MULDIVRS)
  { m with rs_busy_cycles := m.rs_busy_cycles + (pool.filter (·.busy)).length,
           total_rs_cycles := m.total_rs_cycles + pool.length }

/-- `Metrics.update_ls_buffer_utilization`. -/
def updateLsBufferUtilization (m : Metrics) (stations : List RS) : Metrics :=
  let pool := stations.filter (fun rs => rs.kind = .LOADBUF || rs.kind = .STOREBUF)
  { m with ls_buffer_busy_cycles := m.ls_buffer_busy_cycles + (pool.filter (·.busy)).length,
           total_ls_buffer_cycles := m.total_ls_buffer_cycles + pool.length }

/-- `Simulator.tick`: one clock cycle (metrics sampling, then
write-back, execute, issue); the boolean is `True` while the simulation
should continue. -/
def tick (s : SimState) : SimState × Bool :=
  let s := { s with cycle := s.cycle + 1 }
  let s := { s with metrics := { s.metrics with total_cycles := s.cycle } }
  let s := { s with metrics := updateRsOccupancy s.metrics s.stations }
  let s := { s with metrics := updateLsBufferUtilization s.metrics s.stations }
  let s := writeBack s
  let s := execute s
  let issued := issue s
  let s := issued.2
  if !issued.1 && s.insts.length ≤ s.pc && s.stations.all (fun rs => !rs.busy) then
    (s, false)
  else
    (s, true)

/-- Iterate `tick` a fixed number of times. -/
def runTicks (s : SimState) : Nat → SimState
  | 0 => s
  | n + 1 => runTicks (tick s).1 n

/-- `Simulator.run`'s loop (`while self.tick(): pass`), with fuel. -/
def runFuel : Nat → SimState → SimState
  | 0, s => s
  | n + 1, s =>
    let st := tick s
    if st.2 then runFuel n st.1 else st.1

/-- The station pool of `ReservationStations.__init__` with the config
sizes (3 ALU, 2 MUL/DIV, 2 load buffers, 2 store buffers). -/
def initStations : List RS :=
  [ { name := "ALU1", kind := .ALURS }, { name := "ALU2", kind := .ALURS },
    { name := "ALU3", kind := .ALURS },
    { name := "MUL1", kind := .MULDIVRS }, { name := "MUL2", kind := .MULDIVRS },
    { name := "LOAD1", kind := .LOADBUF }, { name := "LOAD2", kind := .LOADBUF },
    { name := "STORE1", kind := .STOREBUF }, { name := "STORE2", kind := .STOREBUF } ]

/-- The unit pool of `FunctionalUnits.__init__` with the config sizes
(2 ALUs, 1 MUL/DIV, 1 LOAD/STORE). -/
def initUnits : List FU :=
  [ { name := "ALU1", kind := .ALUU }, { name := "ALU2", kind := .ALUU },
    { name := "MULDIV1", kind := .MULDIVU },
    { name := "LOADSTORE1", kind := .LOADSTOREU } ]

/-- The simulator state right after `__init__` and `load_trace`:
memory zeroed, no pending statuses, fresh pools, `pc = cycle = 0`.
The register contents are a parameter (the source draws them at
random, `R0 = 0`). -/
def initState (regs : List Int) (prog : List SimInstr) : SimState :=
  { memory := List.replicate MEMORY_SIZE 0
    registers := regs
    regStatus := List.replicate NUM_REGISTERS none
    stations := initStations
    units := initUnits
    cdb := {}
    metrics := { total_instrcutions := prog.length }
    insts := prog
    pc := 0
    cycle := 0
    log := [] }

/-- The IPC figure computed by `Metrics.report`. -/
def Metrics.ipc (m : Metrics) : ℚ :=
  if 0 < m.total_cycles then
    (m.completed_instructions : ℚ) / (m.total_cycles : ℚ)
  else 0

/-- The station carrying a given tag (for stating concrete facts). -/
def stationNamed (s : SimState) (t : String) : RS :=
  (s.stations.find? (fun rs => rs.name = t)).getD default

/-! ## The trace parser (`utils/parser.py`, `components/instruction.py`)

The parser layer works on raw strings, exactly like the source: an
instruction record produced by `Instruction.parse` keeps its operands
as strings.  Python exceptions are modelled by `Except`; the source's
`except ValueError` in `parse_file` catches only `ValueError`, while an
`IndexError` (e.g. too few operands) propagates. -/

/-- The Python exceptions the parser can raise. -/
inductive PyErr
  | valueError (msg : String)
  | indexError
deriving DecidableEq, Repr

deriving instance DecidableEq for Except

/-- An instruction as built by `Instruction.parse` (operands kept as
raw strings, exactly like the source). -/
structure PInstr where
  op : String
  dest : Option String := none
  src1 : Option String := none
  src2 : Option String := none
  offset : Option Int := none
  base : Option String := none
deriving DecidableEq, Repr

/-- Python list subscription: out of range raises `IndexError`. -/
def listGetE (l : List String) (i : Nat) : Except PyErr String :=
  match l.get? i with
  | some x => .ok x
  | none => .error .indexError

/-! The Lean core string functions recurse on byte positions through
well-founded recursion, which the kernel cannot evaluate; the string
manipulation of the parser is therefore spelled out over `List Char`
(structural recursion), with the same semantics as the Python string
methods it models. -/

/-- The ASCII whitespace recognised by Python's `str.strip` and
`str.split`. -/
def isSpacePy (c : Char) : Bool :=
  c = ' ' || c = '\t' || c = '\n' || c = '\r' || c = '\x0b' || c = '\x0c'

/-- Python `str.strip()` on the character list. -/
def trimPy (l : List Char) : List Char :=
  ((l.dropWhile isSpacePy).reverse.dropWhile isSpacePy).reverse

/-- Python `str.strip()`. -/
def stripPy (s : String) : String :=
  String.mk (trimPy s.data)

/-- Python `str.split()` (split on whitespace runs, no empty pieces):
the first accumulator holds the current word, reversed. -/
def splitWsGo : List Char → List Char → List String
  | [], acc => if acc.isEmpty then [] else [String.mk acc.reverse]
  | c :: cs, acc =>
    if isSpacePy c then
      if acc.isEmpty then splitWsGo cs [] else String.mk acc.reverse :: splitWsGo cs []
    else splitWsGo cs (c :: acc)

/-- Python `instruction_str.strip().split()`. -/
def splitPy (s : String) : List String :=
  splitWsGo (trimPy s.data) []

/-- Python `str.split(sep)` for a single-character separator (used with
`','` and `'('`); splitting the empty string yields `[""]`. -/
def splitOnCharGo (sep : Char) : List Char → List Char → List String
  | [], acc => [String.mk acc.reverse]
  | c :: cs, acc =>
    if c = sep then String.mk acc.reverse :: splitOnCharGo sep cs []
    else splitOnCharGo sep cs (c :: acc)

/-- Python `' '.join(parts)`. -/
def joinSpaceChars : List String → List Char
  | [] => []
  | [x] => x.data
  | x :: xs => x.data ++ ' ' :: joinSpaceChars xs

/-- The `' '.join(parts[1:]).replace(' ', '').split(',')` operand
normalisation shared by all three branches of `Instruction.parse`. -/
def operandSplit (parts : List String) : List String :=
  splitOnCharGo ',' ((joinSpaceChars parts.tail).filter (fun c => c ≠ ' ')) []

/-- Python `str.upper()` (ASCII). -/
def toUpperChar (c : Char) : Char :=
  if 'a' ≤ c && c ≤ 'z' then Char.ofNat (c.toNat - 32) else c

/-- Python `str.upper()`. -/
def toUpperPy (s : String) : String :=
  String.mk (s.data.map toUpperChar)

/-- Python `str.rstrip(')')`. -/
def rstripParen (s : String) : String :=
  String.mk ((s.data.reverse.dropWhile (fun c => c = ')')).reverse)

/-- Accumulate a decimal numeral; `none` on a non-digit or on the empty
string.  (Python `int` also accepts underscore separators between
digits; no claim depends on that corner.) -/
def digitsToNat : List Char → Option Nat
  | [] => none
  | cs => cs.foldl
      (fun acc c =>
        match acc with
        | none => none
        | some n => if c.isDigit then some (n * 10 + (c.toNat - 48)) else none)
      (some 0)

def msgBadIntLiteral (s : String) : String :=
  "invalid literal for int() with base 10: " ++ s

/-- Python `int(s)`: optional sign and decimal digits after stripping
whitespace; otherwise `ValueError`. -/
def pyInt (s : String) : Except PyErr Int :=
  match trimPy s.data with
  | '+' :: cs =>
    match digitsToNat cs with
    | some n => .ok (n : Int)
    | none => .error (.valueError (msgBadIntLiteral s))
  | '-' :: cs =>
    match digitsToNat cs with
    | some n => .ok (-(n : Int))
    | none => .error (.valueError (msgBadIntLiteral s))
  | cs =>
    match digitsToNat cs with
    | some n => .ok (n : Int)
    | none => .error (.valueError (msgBadIntLiteral s))

def opADDStr : String := "ADD"
def opSUBStr : String := "SUB"
def opMULStr : String := "MUL"
def opDIVStr : String := "DIV"
def opLOADStr : String := "LOAD"
def opSTOREStr : String := "STORE"
def msgUnknownOp (op : String) : String := "Unknown operation: " ++ op

/-- `Instruction.parse`, with the source's exact sequencing of
subscripts and conversions (which exception wins matters for
`parse_file`'s error handling). -/
def instructionParse (instruction_str : String) : Except PyErr PInstr := do
  let parts := splitPy instruction_str
  let p0 ← listGetE parts 0
  let op := toUpperPy p0
  if op = opADDStr ∨ op = opSUBStr ∨ op = opMULStr ∨ op = opDIVStr then
    let operands := operandSplit parts
    let dest ← listGetE operands 0
    let src1 ← listGetE operands 1
    let src2 ← listGetE operands 2
    return { op := op, dest := some dest, src1 := some src1, src2 := some src2 }
  else if op = opLOADStr then
    let operands := operandSplit parts
    let dest ← listGetE operands 0
    let mem_ref ← listGetE operands 1
    let offset_base := splitOnCharGo '(' mem_ref.data []
    let ob0 ← listGetE offset_base 0
    let offset ← pyInt ob0
    let ob1 ← listGetE offset_base 1
    let base := rstripParen ob1
    return { op := op, dest := some dest, offset := some offset, base := some base }
  else if op = opSTOREStr then
    let operands := operandSplit parts
    let mem_ref ← listGetE operands 0
    let offset_base := splitOnCharGo '(' mem_ref.data []
    let ob0 ← listGetE offset_base 0
    let offset ← pyInt ob0
    let ob1 ← listGetE offset_base 1
    let base := rstripParen ob1
    let src1 ← listGetE operands 1
    return { op := op, src1 := some src1, offset := some offset, base := some base }
  else
    throw (.valueError (msgUnknownOp op))

/-- Is a line neither blank nor a `#` comment after stripping
(`parse_file`'s skip test)? -/
def effectiveLine (l : String) : Bool :=
  !((trimPy l.data).isEmpty ||
    (match trimPy l.data with
     | c :: _ => c = '#'
     | [] => false))

/-- `TraceParser.parse_file` over the file's lines, with `line_num`
enumerating from the given start.  Successful lines accumulate into the
instruction list; a `ValueError` is reported (modelled as a
`(line number, message)` log entry) and the line skipped; any other
exception propagates, aborting the parse (the source catches only
`ValueError`). -/
def parseFileAux (line_num : Nat) : List String → Except PyErr (List (Nat × String) × List PInstr)
  | [] => .ok ([], [])
  | l :: rest =>
    if !effectiveLine l then parseFileAux (line_num + 1) rest
    else
      match instructionParse (stripPy l) with
      | .ok inst =>
        match parseFileAux (line_num + 1) rest with
        | .ok lr => .ok (lr.1, inst :: lr.2)
        | .error e => .error e
      | .error (.valueError m) =>
        match parseFileAux (line_num + 1) rest with
        | .ok lr => .ok ((line_num, m) :: lr.1, lr.2)
        | .error e => .error e
      | .error .indexError => .error .indexError

/-- `TraceParser.parse_file` (lines enumerated from 1). -/
def parse_file (lines : List String) : Except PyErr (List (Nat × String) × List PInstr) :=
  parseFileAux 1 lines

/-- The instruction a line contributes when it parses. -/
def lineOk (l : String) : Option PInstr :=
  match instructionParse (stripPy l) with
  | .ok i => some i
  | .error _ => none

/-- The report message a line contributes when it fails with a
`ValueError`. -/
def lineErrMsg (l : String) : Option String :=
  match instructionParse (stripPy l) with
  | .error (.valueError m) => some m
  | _ => none

/-- The expected report log of a parse run starting at a given line
number (used to state the corrected C6). -/
def logSpec (k : Nat) : List String → List (Nat × String)
  | [] => []
  | l :: rest =>
    if effectiveLine l then
      match lineErrMsg l with
      | some m => (k, m) :: logSpec (k + 1) rest
      | none => logSpec (k + 1) rest
    else logSpec (k + 1) rest

/-! ## Concrete scenarios used by the claims -/

/-- The spec's scenario register file: `R0=0, R1=5, R2=7, R3=3`,
others 0. -/
def regsSpec : List Int := [0, 5, 7, 3, 0, 0, 0, 0]

/-- Scenario 1: `ADD R4, R1, R2` alone. -/
def progAddOnly : List SimInstr :=
  [{ op := .ADD, dest := 4, src1 := 1, src2 := 2 }]

/-- `MUL R4, R1, R2` then `ADD R4, R1, R2`: two in-flight producers of
`R4`. -/
def progMulAdd : List SimInstr :=
  [{ op := .MUL, dest := 4, src1 := 1, src2 := 2 },
   { op := .ADD, dest := 4, src1 := 1, src2 := 2 }]

/-- `LOAD R3, 0(R0)` followed by three independent `ADD`s timed so that
the `LOAD` and the third `ADD` complete in the same cycle (cycle 7). -/
def progLoadRace : List SimInstr :=
  [{ op := .LOAD, dest := 3, offset := 0, base := 0 },
   { op := .ADD, dest := 4, src1 := 1, src2 := 2 },
   { op := .ADD, dest := 4, src1 := 1, src2 := 2 },
   { op := .ADD, dest := 4, src1 := 1, src2 := 2 }]

/-- `STORE 0(R0), R1` followed by three independent `ADD`s timed so
that the `STORE` and the third `ADD` complete in the same cycle. -/
def progStoreRace : List SimInstr :=
  [{ op := .STORE, offset := 0, base := 0, src1 := 1 },
   { op := .ADD, dest := 4, src1 := 1, src2 := 2 },
   { op := .ADD, dest := 4, src1 := 1, src2 := 2 },
   { op := .ADD, dest := 4, src1 := 1, src2 := 2 }]

/-- Scenario 4: `DIV R1, R2, R0` with `R0 = 0`. -/
def progDivZero : List SimInstr :=
  [{ op := .DIV, dest := 1, src1 := 2, src2 := 0 }]

/-- An `ADD` station about to finish (one cycle left), for crafting
multi-completion write-back states. -/
def rsDoneADD (n : String) (a b : Int) : RS :=
  { name := n, kind := .ALURS, busy := true, op := some .ADD,
    vj := some a, vk := some b, dest := some 4,
    executing := true, execution_cycles_left := 1 }

def nmALU1 : String := "ALU1"
def nmALU2 : String := "ALU2"
def nmALU3 : String := "ALU3"
def nmMUL1 : String := "MUL1"
def nmSTORE1 : String := "STORE1"
def nmMULDIV1 : String := "MULDIV1"
def nmLOADSTORE1 : String := "LOADSTORE1"

/-- A write-back state in which both ALU units finish in the same
cycle: two completions compete for the single CDB slot. -/
def stTwoDone : SimState :=
  { memory := [], registers := [0, 0, 0, 0, 0, 0, 0, 0],
    regStatus := List.replicate 8 none,
    stations := [rsDoneADD nmALU1 1 2, rsDoneADD nmALU2 3 4],
    units :=
      [{ name := nmALU1, kind := .ALUU, busy := true,
         reservation_station := some nmALU1, cycles_left := 1 },
       { name := nmALU2, kind := .ALUU, busy := true,
         reservation_station := some nmALU2, cycles_left := 1 }],
    cdb := {}, metrics := {}, insts := [], pc := 0, cycle := 3, log := [] }

/-- A write-back state in which a lone `STORE` completes. -/
def stStoreDone : SimState :=
  { memory := [0, 0, 0, 0], registers := [0, 0, 0, 0, 0, 0, 0, 0],
    regStatus := List.replicate 8 none,
    stations :=
      [{ name := nmSTORE1, kind := .STOREBUF, busy := true, op := some .STORE,
         vj := some 0, vk := some 42, offset := some 3, address := some 3,
         executing := true, execution_cycles_left := 1 }],
    units :=
      [{ name := nmLOADSTORE1, kind := .LOADSTOREU, busy := true,
         reservation_station := some nmSTORE1, cycles_left := 1 }],
    cdb := {}, metrics := {}, insts := [{ op := .STORE }], pc := 1, cycle := 9, log := [] }

/-- A write-back state in which an `ADD` and a `STORE` finish in the
same cycle; the `STORE` loses the CDB arbitration. -/
def stAddStoreDone : SimState :=
  { memory := [0, 0, 0, 0], registers := [0, 0, 0, 0, 0, 0, 0, 0],
    regStatus := List.replicate 8 none,
    stations :=
      [rsDoneADD nmALU1 1 2,
       { name := nmSTORE1, kind := .STOREBUF, busy := true, op := some .STORE,
         vj := some 0, vk := some 42, offset := some 3, address := some 3,
         executing := true, execution_cycles_left := 1 }],
    units :=
      [{ name := nmALU1, kind := .ALUU, busy := true,
         reservation_station := some nmALU1, cycles_left := 1 },
       { name := nmLOADSTORE1, kind := .LOADSTOREU, busy := true,
         reservation_station := some nmSTORE1, cycles_left := 1 }],
    cdb := {}, metrics := {}, insts := [{ op := .STORE }], pc := 1, cycle := 9, log := [] }

/-- A state whose whole ALU pool is busy while an `ADD` waits at `pc`:
a structural hazard at issue. -/
def stHazard : SimState :=
  { memory := [], registers := [0, 1, 2, 3, 4, 5, 6, 7],
    regStatus := List.replicate 8 none,
    stations := initStations.map (fun rs => if rs.kind = .ALURS then { rs with busy := true, op := some .ADD } else rs),
    units := initUnits,
    cdb := {}, metrics := {}, insts := [{ op := .ADD, dest := 4, src1 := 1, src2 := 2 }],
    pc := 0, cycle := 5, log := [] }

/-! ## Invariants and refinement relations used in the proofs -/

/-- The fields of a station that the register-status invariant talks
about: name, busy flag, destination and opcode. -/
def RS.core (rs : RS) : String × Bool × Option Nat × Option Op :=
  (rs.name, rs.busy, rs.dest, rs.op)

/-- The provable direction of the spec's register-status invariant:
every pending status entry names a busy station whose destination is
that register and whose opcode writes a register. -/
def statusInv (s : SimState) : Prop :=
  ∀ r t, statusOf s r = some t →
    ∃ j rs, s.stations.get? j = some rs ∧ rs.name = t ∧ rs.busy = true ∧
      rs.dest = some r ∧ isRegWriteOp rs.op = true

/-- The station pool's names are the fixed, pairwise distinct names of
`ReservationStations.__init__`. -/
def namesFixed (s : SimState) : Prop :=
  s.stations.map RS.name = initStations.map RS.name

/-- The inductive invariant behind claim C1. -/
def SimInv (s : SimState) : Prop :=
  namesFixed s ∧ statusInv s

/-- `s'` agrees with `s` on the register-status vector and on every
station's `core` fields (the phases that only touch countdowns,
operand captures and bookkeeping induce this relation). -/
def coreAgree (s s' : SimState) : Prop :=
  s'.regStatus = s.regStatus ∧
  ∀ j, (s'.stations.get? j).map RS.core = (s.stations.get? j).map RS.core

/-- No instruction at or beyond `pc` has been stamped with an issue
cycle yet (the inductive invariant behind the corrected C3). -/
def noFutureIssue (s : SimState) : Prop :=
  ∀ i, s.pc ≤ i → (s.insts.getD i default).issue_cycle = none

/-- The `issue_cycle` stamp of instruction `i` in state `s`. -/
def issueStampAt (s : SimState) (i : Nat) : Option Nat :=
  (s.insts.getD i default).issue_cycle

/-! ## Concrete parser inputs used by claim C6 -/

def rnR1 : String := "R1"
def rnR2 : String := "R2"
def rnR3 : String := "R3"
def strFOO : String := "FOO"
def lineGoodAdd : String := "ADD R3, R1, R2"
def lineBadAdd : String := "ADD R1,R2"
def lineFoo : String := "FOO X"
def lineComment : String := "# setup"

/-- The instruction `ADD R3, R1, R2` as `Instruction.parse` builds it. -/
def pinstrAdd312 : PInstr :=
  { op := opADDStr, dest := some rnR3, src1 := some rnR1, src2 := some rnR2 }

/-- The loser station of `stAddStoreDone` as it stands right after the
functional units ticked (countdown at zero, no longer executing). -/
def rsStoreLoser : RS :=
  { name := nmSTORE1, kind := .STOREBUF, busy := true, op := some .STORE,
    vj := some 0, vk := some 42, offset := some 3, address := some 3,
    execution_cycles_left := 0 }

/-! # Proofs

## List helper lemmas -/

theorem getD_eq_get?_getD (l : List α) (n : Nat) (d : α) :
    l.getD n d = (l.get? n).getD d := by
  simp [List.getD_eq_getElem?_getD, List.get?_eq_getElem?]

theorem modifyIdx_get?_self (l : List α) (n : Nat) (f : α → α) :
    (modifyIdx l n f).get? n = (l.get? n).map f := by
  induction l generalizing n with
  | nil => cases n <;> rfl
  | cons a l ih =>
    cases n with
    | zero => rfl
    | succ m => simpa [modifyIdx] using ih m

theorem modifyIdx_get?_ne (l : List α) (n m : Nat) (f : α → α) (h : m ≠ n) :
    (modifyIdx l n f).get? m = l.get? m := by
  induction l generalizing n m with
  | nil => cases n <;> rfl
  | cons a l ih =>
    cases n with
    | zero =>
      cases m with
      | zero => exact absurd rfl h
      | succ k => rfl
    | succ n' =>
      cases m with
      | zero => rfl
      | succ k => simpa [modifyIdx] using ih n' k (by omega)

theorem firstIdxWhere_some {p : α → Bool} :
    ∀ {l : List α} {j : Nat}, firstIdxWhere p l = some j →
      ∃ a, l.get? j = some a ∧ p a = true := by
  intro l
  induction l with
  | nil => intro j h; exact absurd h (by simp [firstIdxWhere])
  | cons a l ih =>
    intro j h
    unfold firstIdxWhere at h
    by_cases hp : p a
    · rw [if_pos hp] at h
      have hj : j = 0 := (Option.some.inj h).symm
      subst hj
      exact ⟨a, rfl, hp⟩
    · rw [if_neg hp] at h
      rcases hmap : firstIdxWhere p l with _ | j'
      · rw [hmap] at h; exact absurd h (by simp)
      · rw [hmap] at h
        simp only [Option.map_some'] at h
        obtain ⟨b, hb, hpb⟩ := ih hmap
        have hj : j = j' + 1 := (Option.some.inj h).symm
        subst hj
        exact ⟨b, hb, hpb⟩

theorem map_modifyIdx_of_get (g : α → β) (l : List α) (n : Nat) (f : α → α)
    (hf : ∀ a, l.get? n = some a → g (f a) = g a) :
    (modifyIdx l n f).map g = l.map g := by
  apply List.ext_get?
  intro m
  rw [List.get?_map, List.get?_map]
  by_cases hm : m = n
  · subst hm
    rw [modifyIdx_get?_self]
    cases hl : l.get? m with
    | none => rfl
    | some a => simp [hf a hl]
  · rw [modifyIdx_get?_ne _ _ _ _ hm]

theorem get?_replicate_getD_none (n r : Nat) :
    ((List.replicate n (none : Option String)).get? r).getD none = none := by
  cases h : (List.replicate n (none : Option String)).get? r with
  | none => rfl
  | some x =>
    have hx := List.eq_of_mem_replicate (List.get?_mem h)
    simp [hx]

/-! ## Transport lemmas for the invariant -/

theorem simInv_congr {s s' : SimState} (h1 : s'.stations = s.stations)
    (h2 : s'.regStatus = s.regStatus) (h : SimInv s) : SimInv s' := by
  obtain ⟨hn, hs⟩ := h
  constructor
  · unfold namesFixed at *
    rw [h1]; exact hn
  · intro r t hst
    have : statusOf s r = some t := by
      unfold statusOf at *
      rw [h2] at hst; exact hst
    obtain ⟨j, rs, hj, h₁, h₂, h₃, h₄⟩ := hs r t this
    exact ⟨j, rs, by rw [h1]; exact hj, h₁, h₂, h₃, h₄⟩

theorem coreAgree_refl (s : SimState) : coreAgree s s :=
  ⟨rfl, fun _ => rfl⟩

theorem coreAgree_trans {s₁ s₂ s₃ : SimState}
    (h : coreAgree s₁ s₂) (h' : coreAgree s₂ s₃) : coreAgree s₁ s₃ :=
  ⟨h'.1.trans h.1, fun j => (h'.2 j).trans (h.2 j)⟩

theorem name_eq_of_core_eq {rs rs' : RS} (h : RS.core rs = RS.core rs') :
    rs.name = rs'.name := congrArg (·.1) h

theorem busy_eq_of_core_eq {rs rs' : RS} (h : RS.core rs = RS.core rs') :
    rs.busy = rs'.busy := congrArg (·.2.1) h

theorem dest_eq_of_core_eq {rs rs' : RS} (h : RS.core rs = RS.core rs') :
    rs.dest = rs'.dest := congrArg (·.2.2.1) h

theorem op_eq_of_core_eq {rs rs' : RS} (h : RS.core rs = RS.core rs') :
    rs.op = rs'.op := congrArg (·.2.2.2) h

theorem namesFixed_of_coreAgree {s s' : SimState} (h : coreAgree s s')
    (hn : namesFixed s) : namesFixed s' := by
  unfold namesFixed at *
  rw [← hn]
  apply List.ext_get?
  intro j
  rw [List.get?_map, List.get?_map]
  have hc := h.2 j
  cases h1 : s'.stations.get? j with
  | none =>
    rw [h1] at hc
    cases h2 : s.stations.get? j with
    | none => rfl
    | some b => rw [h2] at hc; exact absurd hc.symm (by simp)
  | some a =>
    rw [h1] at hc
    cases h2 : s.stations.get? j with
    | none => rw [h2] at hc; exact absurd hc (by simp)
    | some b =>
      rw [h2] at hc
      simp only [Option.map_some'] at hc ⊢
      rw [name_eq_of_core_eq (Option.some.inj hc)]

theorem statusInv_of_coreAgree {s s' : SimState} (h : coreAgree s s')
    (hi : statusInv s) : statusInv s' := by
  intro r t hst
  have hst' : statusOf s r = some t := by
    unfold statusOf at *
    rw [h.1] at hst; exact hst
  obtain ⟨j, rs, hj, h₁, h₂, h₃, h₄⟩ := hi r t hst'
  have hc := h.2 j
  rw [hj] at hc
  cases h1 : s'.stations.get? j with
  | none => rw [h1] at hc; exact absurd hc (by simp)
  | some rs' =>
    rw [h1] at hc
    simp only [Option.map_some'] at hc
    have hcore := Option.some.inj hc
    refine ⟨j, rs', h1, ?_, ?_, ?_, ?_⟩
    · rw [name_eq_of_core_eq hcore, h₁]
    · rw [busy_eq_of_core_eq hcore, h₂]
    · rw [dest_eq_of_core_eq hcore, h₃]
    · rw [op_eq_of_core_eq hcore, h₄]

theorem simInv_of_coreAgree {s s' : SimState} (h : coreAgree s s')
    (hi : SimInv s) : SimInv s' :=
  ⟨namesFixed_of_coreAgree h hi.1, statusInv_of_coreAgree h hi.2⟩

theorem core_get?_modifyIdx (l : List RS) (n : Nat) (f : RS → RS)
    (hf : ∀ rs, RS.core (f rs) = RS.core rs) (j : Nat) :
    ((modifyIdx l n f).get? j).map RS.core = (l.get? j).map RS.core := by
  by_cases hj : j = n
  · subst hj
    rw [modifyIdx_get?_self]
    cases l.get? j with
    | none => rfl
    | some a => simp [hf]
  · rw [modifyIdx_get?_ne _ _ _ _ hj]

theorem fuTickUnit_effects (s : SimState) (k : Nat) :
    coreAgree s (fuTickUnit s k).1 ∧
    (fuTickUnit s k).1.registers = s.registers ∧
    (fuTickUnit s k).1.metrics = s.metrics ∧
    (fuTickUnit s k).1.insts = s.insts ∧
    (fuTickUnit s k).1.pc = s.pc ∧
    (fuTickUnit s k).1.cycle = s.cycle ∧
    (fuTickUnit s k).1.cdb = s.cdb := by
  unfold fuTickUnit
  rcases hget : s.units.get? k with _ | u
  · exact ⟨coreAgree_refl s, rfl, rfl, rfl, rfl, rfl, rfl⟩
  · try dsimp only
    rcases hb : u.busy
    · exact ⟨coreAgree_refl s, rfl, rfl, rfl, rfl, rfl, rfl⟩
    · try dsimp only
      rcases hrs : u.reservation_station with _ | n
      · try dsimp only
        by_cases hcl : (0 : Int) < u.cycles_left - 1
        · rw [if_pos hcl]
          exact ⟨⟨rfl, fun m => rfl⟩, rfl, rfl, rfl, rfl, rfl, rfl⟩
        · rw [if_neg hcl]
          exact ⟨⟨rfl, fun m => rfl⟩, rfl, rfl, rfl, rfl, rfl, rfl⟩
      · try dsimp only
        rcases hfind : findStationIdx s.stations n with _ | j
        · try dsimp only
          by_cases hcl : (0 : Int) < u.cycles_left - 1
          · rw [if_pos hcl]
            exact ⟨⟨rfl, fun m => rfl⟩, rfl, rfl, rfl, rfl, rfl, rfl⟩
          · rw [if_neg hcl]
            exact ⟨⟨rfl, fun m => rfl⟩, rfl, rfl, rfl, rfl, rfl, rfl⟩
        · try dsimp only
          by_cases hcl : (0 : Int) < u.cycles_left - 1
          · rw [if_pos hcl]
            refine ⟨⟨rfl, fun m => ?_⟩, rfl, rfl, rfl, rfl, rfl, rfl⟩
            refine core_get?_modifyIdx _ _ _ (fun rs => ?_) m
            rfl
          · rw [if_neg hcl]
            refine ⟨⟨rfl, fun m => ?_⟩, rfl, rfl, rfl, rfl, rfl, rfl⟩
            refine Eq.trans (core_get?_modifyIdx _ _ _ (fun rs => ?_) m)
              (core_get?_modifyIdx _ _ _ (fun rs => ?_) m)
            · rfl
            · rfl

theorem issueStamp_modifyIdx (l : List SimInstr) (n : Nat) (f : SimInstr → SimInstr)
    (hf : ∀ a, (f a).issue_cycle = a.issue_cycle) (i : Nat) :
    ((modifyIdx l n f).getD i default).issue_cycle = (l.getD i default).issue_cycle := by
  rw [getD_eq_get?_getD, getD_eq_get?_getD]
  by_cases h : i = n
  · subst h
    rw [modifyIdx_get?_self]
    cases hl : l.get? i with
    | none => rfl
    | some a => simp [hf]
  · rw [modifyIdx_get?_ne _ _ _ _ h]

theorem stampStart_issue (insts : List SimInstr) (io : Option Nat) (c : Nat) (i : Nat) :
    ((stampStart insts io c).getD i default).issue_cycle = (insts.getD i default).issue_cycle := by
  cases io with
  | none => rfl
  | some idx =>
    unfold stampStart
    try dsimp only
    refine issueStamp_modifyIdx _ _ _ (fun a => ?_) i
    rfl

theorem stampComplete_issue (insts : List SimInstr) (io : Option Nat) (c : Nat) (i : Nat) :
    ((stampComplete insts io c).getD i default).issue_cycle = (insts.getD i default).issue_cycle := by
  cases io with
  | none => rfl
  | some idx =>
    unfold stampComplete
    try dsimp only
    refine issueStamp_modifyIdx _ _ _ (fun a => ?_) i
    rfl

theorem fuTickFrom_effects (ks : List Nat) (s : SimState) :
    coreAgree s (fuTickFrom s ks).1 ∧
    (fuTickFrom s ks).1.registers = s.registers ∧
    (fuTickFrom s ks).1.metrics = s.metrics ∧
    (fuTickFrom s ks).1.insts = s.insts ∧
    (fuTickFrom s ks).1.pc = s.pc ∧
    (fuTickFrom s ks).1.cycle = s.cycle := by
  induction ks generalizing s with
  | nil => exact ⟨coreAgree_refl s, rfl, rfl, rfl, rfl, rfl⟩
  | cons k ks ih =>
    obtain ⟨h1, h2, h3, h4, h5, h6, _⟩ := fuTickUnit_effects s k
    obtain ⟨g1, g2, g3, g4, g5, g6⟩ := ih (fuTickUnit s k).1
    exact ⟨coreAgree_trans h1 g1, g2.trans h2, g3.trans h3, g4.trans h4,
           g5.trans h5, g6.trans h6⟩

theorem executeStep_effects (s : SimState) (j : Nat) :
    coreAgree s (executeStep s j) ∧
    (executeStep s j).registers = s.registers ∧
    (executeStep s j).metrics = s.metrics ∧
    (executeStep s j).pc = s.pc ∧
    (executeStep s j).cycle = s.cycle ∧
    (executeStep s j).cdb = s.cdb ∧
    (executeStep s j).memory = s.memory ∧
    (executeStep s j).log = s.log ∧
    ∀ i, ((executeStep s j).insts.getD i default).issue_cycle =
      (s.insts.getD i default).issue_cycle := by
  unfold executeStep
  rcases hget : s.stations.get? j with _ | rs
  · exact ⟨coreAgree_refl s, rfl, rfl, rfl, rfl, rfl, rfl, rfl, fun i => rfl⟩
  · try dsimp only
    rcases hcond : (rs.isReady && !rs.executing)
    · exact ⟨coreAgree_refl s, rfl, rfl, rfl, rfl, rfl, rfl, rfl, fun i => rfl⟩
    · try dsimp only
      rcases hunit : getAvailableUnit s.units rs.op with _ | k
      · exact ⟨coreAgree_refl s, rfl, rfl, rfl, rfl, rfl, rfl, rfl, fun i => rfl⟩
      · try dsimp only
        by_cases hmem : rs.op = some .LOAD ∨ rs.op = some .STORE
        · rw [if_pos hmem]
          refine ⟨⟨rfl, fun m => ?_⟩, rfl, rfl, rfl, rfl, rfl, rfl, rfl,
                  fun i => stampStart_issue _ _ _ i⟩
          refine Eq.trans (core_get?_modifyIdx _ _ _ (fun rs => ?_) m)
            (core_get?_modifyIdx _ _ _ (fun rs => ?_) m)
          · rfl
          · rfl
        · rw [if_neg hmem]
          refine ⟨⟨rfl, fun m => ?_⟩, rfl, rfl, rfl, rfl, rfl, rfl, rfl,
                  fun i => stampStart_issue _ _ _ i⟩
          refine core_get?_modifyIdx _ _ _ (fun rs => ?_) m
          rfl

theorem executeFrom_effects (ks : List Nat) (s : SimState) :
    coreAgree s (executeFrom s ks) ∧
    (executeFrom s ks).registers = s.registers ∧
    (executeFrom s ks).metrics = s.metrics ∧
    (executeFrom s ks).pc = s.pc ∧
    (executeFrom s ks).cycle = s.cycle ∧
    ∀ i, ((executeFrom s ks).insts.getD i default).issue_cycle =
      (s.insts.getD i default).issue_cycle := by
  induction ks generalizing s with
  | nil => exact ⟨coreAgree_refl s, rfl, rfl, rfl, rfl, fun i => rfl⟩
  | cons k ks ih =>
    obtain ⟨h1, h2, h3, h4, h5, _, _, _, h9⟩ := executeStep_effects s k
    obtain ⟨g1, g2, g3, g4, g5, g6⟩ := ih (executeStep s k)
    exact ⟨coreAgree_trans h1 g1, g2.trans h2, g3.trans h3, g4.trans h4,
           g5.trans h5, fun i => (g6 i).trans (h9 i)⟩

theorem findStationIdx_spec {stations : List RS} {t : String} {j : Nat}
    (h : findStationIdx stations t = some j) :
    ∃ rs, stations.get? j = some rs ∧ rs.name = t := by
  obtain ⟨rs, hj, hp⟩ := firstIdxWhere_some h
  exact ⟨rs, hj, of_decide_eq_true hp⟩

theorem getAvailableStation_spec {stations : List RS} {op : Op} {j : Nat}
    (h : getAvailableStation stations op = some j) :
    ∃ rs, stations.get? j = some rs ∧ rs.busy = false ∧ rs.kind = op.poolKind := by
  obtain ⟨rs, hj, hp⟩ := firstIdxWhere_some h
  simp only [Bool.and_eq_true, Bool.not_eq_true', decide_eq_true_eq] at hp
  exact ⟨rs, hj, hp.2, hp.1⟩

theorem initStations_names_nodup : (initStations.map RS.name).Nodup := by decide

theorem station_name_unique {s : SimState} (hn : namesFixed s) {j j' : Nat} {rs rs' : RS}
    (hj : s.stations.get? j = some rs) (hj' : s.stations.get? j' = some rs')
    (he : rs.name = rs'.name) : j = j' := by
  have h1 : (s.stations.map RS.name).get? j = some rs.name := by
    rw [List.get?_map, hj]; rfl
  have h2 : (s.stations.map RS.name).get? j' = some rs.name := by
    rw [List.get?_map, hj', he]; rfl
  rw [hn] at h1 h2
  have hlt : j < (initStations.map RS.name).length := by
    by_contra hge
    rw [List.get?_eq_none.mpr (Nat.le_of_not_lt hge)] at h1
    exact absurd h1 (by simp)
  exact List.get?_inj hlt initStations_names_nodup (h1.trans h2.symm)

theorem snoopRS_core (t : String) (v : Option Int) (rs : RS) :
    RS.core (snoopRS t v rs) = RS.core rs := by
  unfold snoopRS
  try dsimp only
  split <;> split <;> rfl

theorem snoopRS_of_none {t : String} {v : Option Int} {rs : RS}
    (hqj : rs.qj = none) (hqk : rs.qk = none) : snoopRS t v rs = rs := by
  simp [snoopRS, hqj, hqk]

theorem updateFromCdb_get? (l : List RS) (t : String) (v : Option Int) (j : Nat) :
    (updateFromCdb l t v).get? j = (l.get? j).map (snoopRS t v) := by
  unfold updateFromCdb
  exact List.get?_map _ _ _

theorem map_name_updateFromCdb (l : List RS) (t : String) (v : Option Int) :
    (updateFromCdb l t v).map RS.name = l.map RS.name := by
  apply List.ext_get?
  intro m
  rw [List.get?_map, updateFromCdb_get?, List.get?_map]
  cases l.get? m with
  | none => rfl
  | some rs => simp [name_eq_of_core_eq (snoopRS_core t v rs)]

theorem getD_set_none_some {l : List (Option String)} {d r : Nat} {t : String}
    (h : (l.set d none).getD r none = some t) :
    l.getD r none = some t ∧ r ≠ d := by
  rw [getD_eq_get?_getD] at h
  by_cases hr : r = d
  · subst hr
    rw [List.get?_set_eq] at h
    cases hl : l.get? r with
    | none => rw [hl] at h; exact absurd h (by simp)
    | some x => rw [hl] at h; exact absurd h (by simp)
  · rw [List.get?_set_ne _ l (fun he => hr he.symm)] at h
    exact ⟨by rw [getD_eq_get?_getD]; exact h, hr⟩

theorem getD_set_some_cases {l : List (Option String)} {d r : Nat} {nm t : String}
    (h : (l.set d (some nm)).getD r none = some t) :
    (r = d ∧ t = nm) ∨ (r ≠ d ∧ l.getD r none = some t) := by
  rw [getD_eq_get?_getD] at h
  by_cases hr : r = d
  · subst hr
    rw [List.get?_set_eq] at h
    cases hl : l.get? r with
    | none => rw [hl] at h; exact absurd h (by simp)
    | some x =>
      rw [hl] at h
      simp only [Option.map_eq_map, Option.map_some', Option.getD_some] at h
      exact Or.inl ⟨rfl, (Option.some.inj h).symm⟩
  · rw [List.get?_set_ne _ l (fun he => hr he.symm)] at h
    exact Or.inr ⟨hr, by rw [getD_eq_get?_getD]; exact h⟩

theorem witness_after_clear {stations : List RS} {t : String} {v : Option Int}
    {j j₁ : Nat} {rs₁ : RS} (hj₁ : stations.get? j₁ = some rs₁) (hne : j₁ ≠ j) :
    (modifyIdx (updateFromCdb stations t v) j RS.clear).get? j₁ =
      some (snoopRS t v rs₁) := by
  rw [modifyIdx_get?_ne _ _ _ _ hne, updateFromCdb_get?, hj₁]
  rfl

theorem namesFixed_final {s : SimState} (t : String) (v : Option Int) (j : Nat)
    (hn : namesFixed s) :
    (modifyIdx (updateFromCdb s.stations t v) j RS.clear).map RS.name =
      initStations.map RS.name := by
  rw [map_modifyIdx_of_get RS.name (updateFromCdb s.stations t v) j RS.clear
        (fun a _ => rfl),
      map_name_updateFromCdb]
  exact hn

theorem statusInv_transport_processed {s : SimState} {t : String} {v : Option Int}
    {j : Nat} {rs : RS}
    (hn : namesFixed s) (hs : statusInv s)
    (hget : s.stations.get? j = some rs) (hname : rs.name = t)
    (rst : List (Option String))
    (hrst : ∀ r t', rst.getD r none = some t' → s.regStatus.getD r none = some t')
    (hcontra : ∀ r, rst.getD r none = some t → rs.dest = some r → False) :
    ∀ r t', rst.getD r none = some t' →
      ∃ j₁ rs₁,
        (modifyIdx (updateFromCdb s.stations t v) j RS.clear).get? j₁ = some rs₁ ∧
        rs₁.name = t' ∧ rs₁.busy = true ∧ rs₁.dest = some r ∧
        isRegWriteOp rs₁.op = true := by
  intro r t' h'
  obtain ⟨j₁, rs₁, hj₁, h1, h2, h3, h4⟩ := hs r t' (hrst r t' h')
  by_cases hjj : j₁ = j
  · exfalso
    subst hjj
    rw [hget] at hj₁
    have hrs : rs = rs₁ := Option.some.inj hj₁
    have ht' : t' = t := by rw [← h1, ← hrs, hname]
    exact hcontra r (by rw [← ht']; exact h') (by rw [hrs]; exact h3)
  · refine ⟨j₁, snoopRS t v rs₁, witness_after_clear hj₁ hjj, ?_, ?_, ?_, ?_⟩
    · rw [name_eq_of_core_eq (snoopRS_core t v rs₁)]; exact h1
    · rw [busy_eq_of_core_eq (snoopRS_core t v rs₁)]; exact h2
    · rw [dest_eq_of_core_eq (snoopRS_core t v rs₁)]; exact h3
    · rw [op_eq_of_core_eq (snoopRS_core t v rs₁)]; exact h4

theorem applyCompletion_SimInv (s : SimState) (t : String) (v : Option Int)
    (hi : SimInv s) : SimInv (applyCompletion s t v) := by
  obtain ⟨hn, hs⟩ := hi
  unfold applyCompletion
  try dsimp only
  rcases hfind : findStationIdx s.stations t with _ | j
  · exact simInv_congr rfl rfl ⟨hn, hs⟩
  · try dsimp only
    obtain ⟨rsf, hgetf, hnamef⟩ := findStationIdx_spec hfind
    rcases hget : s.stations.get? j with _ | rs
    · exact simInv_congr rfl rfl ⟨hn, hs⟩
    · have hname : rs.name = t := by
        rw [hget] at hgetf
        rw [← Option.some.inj hgetf] at hnamef
        exact hnamef
      try dsimp only
      rcases hrw : isRegWriteOp rs.op
      · -- not a register-writing op: the status vector is untouched
        refine ⟨?_, ?_⟩
        · exact namesFixed_final t v j hn
        intro r t' h'
        refine statusInv_transport_processed hn hs hget hname s.regStatus
          (fun r t' h => h) (fun r hst hdest => ?_) r t' h'
        obtain ⟨j₁, rs₁, hj₁, h1, h2, h3, h4⟩ := hs r t hst
        have hjj : j₁ = j := station_name_unique hn hj₁ hget (h1.trans hname.symm)
        subst hjj
        rw [hget] at hj₁
        rw [← Option.some.inj hj₁] at h4
        rw [h4] at hrw
        exact Bool.noConfusion hrw
      · rcases hdest : rs.dest with _ | d
        · -- register-writing op with no destination: impossible for a
          -- status entry to point here (the invariant forces a destination)
          refine ⟨?_, ?_⟩
          · exact namesFixed_final t v j hn
          intro r t' h'
          refine statusInv_transport_processed hn hs hget hname s.regStatus
            (fun r t' h => h) (fun r hst hdestr => ?_) r t' h'
          rw [hdest] at hdestr
          exact Option.noConfusion hdestr
        · try dsimp only
          by_cases hcond :
              statusOf { s with
                registers := s.registers.set d (v.getD 0),
                cdb := (s.cdb.broadcast t v).1,
                insts := stampComplete s.insts rs.instr s.cycle } d = some t
          · -- the status still names this station: it is cleared
            rw [if_pos hcond]
            refine ⟨?_, ?_⟩
            · exact namesFixed_final t v j hn
            intro r t' h'
            have h'' : (s.regStatus.set d none).getD r none = some t' := h'
            refine statusInv_transport_processed hn hs hget hname
              (s.regStatus.set d none)
              (fun r t' h => (getD_set_none_some h).1) (fun r hst hdestr => ?_) r t' h''
            obtain ⟨_, hrd'⟩ := getD_set_none_some hst
            rw [hdest] at hdestr
            exact hrd' (Option.some.inj hdestr).symm
          · -- the destination was re-renamed: the file is left alone
            rw [if_neg hcond]
            have hcond' : ¬ s.regStatus.getD d none = some t := fun hc => hcond hc
            refine ⟨?_, ?_⟩
            · exact namesFixed_final t v j hn
            intro r t' h'
            refine statusInv_transport_processed hn hs hget hname s.regStatus
              (fun r t' h => h) (fun r hst hdestr => ?_) r t' h'
            rw [hdest] at hdestr
            rw [(Option.some.inj hdestr).symm] at hst
            exact hcond' hst

theorem writeBack_SimInv {s : SimState} (h : SimInv s) : SimInv (writeBack s) := by
  unfold writeBack
  try dsimp only
  have h1 : SimInv { s with cdb := {} } := simInv_congr rfl rfl h
  have h2 : SimInv (fuTickAll { s with cdb := {} }).1 :=
    simInv_of_coreAgree (fuTickFrom_effects _ _).1 h1
  rcases hres : (fuTickAll { s with cdb := {} }).2 with _ | ⟨⟨t, v⟩, rest⟩
  · exact h2
  · exact applyCompletion_SimInv _ t v h2

theorem issue_bind_SimInv_set {s s' : SimState} {j : Nat} {rs rs1 : RS} {dst : Nat}
    (hn : namesFixed s) (hs : statusInv s)
    (hget : s.stations.get? j = some rs) (hbusy : rs.busy = false)
    (hst' : s'.stations = modifyIdx s.stations j (fun _ => rs1))
    (hrs' : s'.regStatus = s.regStatus.set dst (some rs.name))
    (hname1 : rs1.name = rs.name) (hbusy1 : rs1.busy = true)
    (hdest1 : rs1.dest = some dst) (hop1 : isRegWriteOp rs1.op = true) :
    SimInv s' := by
  constructor
  · unfold namesFixed
    rw [hst',
        map_modifyIdx_of_get RS.name s.stations j (fun _ => rs1)
          (fun a ha => by
            rw [hget] at ha
            rw [hname1, Option.some.inj ha])]
    exact hn
  · intro r t' h'
    have h'' : (s.regStatus.set dst (some rs.name)).getD r none = some t' := by
      unfold statusOf at h'
      rw [hrs'] at h'
      exact h'
    rcases getD_set_some_cases h'' with ⟨hrd, ht'⟩ | ⟨hrd, hsr⟩
    · refine ⟨j, rs1, ?_, ?_, hbusy1, ?_, hop1⟩
      · rw [hst', modifyIdx_get?_self, hget]
        rfl
      · rw [hname1, ht']
      · rw [hdest1, hrd]
    · obtain ⟨j₁, rs₁, hj₁, h1, h2, h3, h4⟩ := hs r t' (by
        unfold statusOf
        exact hsr)
      by_cases hjj : j₁ = j
      · exfalso
        subst hjj
        rw [hget] at hj₁
        rw [← Option.some.inj hj₁] at h2
        rw [hbusy] at h2
        exact Bool.noConfusion h2
      · refine ⟨j₁, rs₁, ?_, h1, h2, h3, h4⟩
        rw [hst', modifyIdx_get?_ne _ _ _ _ hjj]
        exact hj₁

theorem issue_bind_SimInv_noset {s s' : SimState} {j : Nat} {rs rs1 : RS}
    (hn : namesFixed s) (hs : statusInv s)
    (hget : s.stations.get? j = some rs) (hbusy : rs.busy = false)
    (hst' : s'.stations = modifyIdx s.stations j (fun _ => rs1))
    (hrs' : s'.regStatus = s.regStatus)
    (hname1 : rs1.name = rs.name) : SimInv s' := by
  constructor
  · unfold namesFixed
    rw [hst',
        map_modifyIdx_of_get RS.name s.stations j (fun _ => rs1)
          (fun a ha => by
            rw [hget] at ha
            rw [hname1, Option.some.inj ha])]
    exact hn
  · intro r t' h'
    have h'' : statusOf s r = some t' := by
      unfold statusOf at h' ⊢
      rw [hrs'] at h'
      exact h'
    obtain ⟨j₁, rs₁, hj₁, h1, h2, h3, h4⟩ := hs r t' h''
    by_cases hjj : j₁ = j
    · exfalso
      subst hjj
      rw [hget] at hj₁
      rw [← Option.some.inj hj₁] at h2
      rw [hbusy] at h2
      exact Bool.noConfusion h2
    · refine ⟨j₁, rs₁, ?_, h1, h2, h3, h4⟩
      rw [hst', modifyIdx_get?_ne _ _ _ _ hjj]
      exact hj₁

theorem captureJ_core (s : SimState) (src : Nat) (rs : RS) :
    RS.core (captureJ s src rs) = RS.core rs := by
  unfold captureJ
  cases statusOf s src <;> rfl

theorem captureK_core (s : SimState) (src : Nat) (rs : RS) :
    RS.core (captureK s src rs) = RS.core rs := by
  unfold captureK
  cases statusOf s src <;> rfl

theorem issue_SimInv {s : SimState} (h : SimInv s) : SimInv (issue s).2 := by
  obtain ⟨hn, hs⟩ := h
  unfold issue
  by_cases hpc : s.pc < s.insts.length
  · rw [if_pos hpc]
    try dsimp only
    rcases hav : getAvailableStation s.stations (s.insts.getD s.pc default).op with _ | j
    · exact simInv_congr rfl rfl ⟨hn, hs⟩
    · try dsimp only
      obtain ⟨rs, hget, hbusy, hkind⟩ := getAvailableStation_spec hav
      unfold issueInto
      try dsimp only
      rw [hget]
      try dsimp only
      rcases hop : (s.insts.getD s.pc default).op
      · refine issue_bind_SimInv_set hn hs hget hbusy rfl rfl ?_ ?_ ?_ ?_
        · rw [name_eq_of_core_eq (captureK_core _ _ _),
              name_eq_of_core_eq (captureJ_core _ _ _)]
        · rw [busy_eq_of_core_eq (captureK_core _ _ _),
              busy_eq_of_core_eq (captureJ_core _ _ _)]
        · rw [dest_eq_of_core_eq (captureK_core _ _ _),
              dest_eq_of_core_eq (captureJ_core _ _ _)]
        · rw [op_eq_of_core_eq (captureK_core _ _ _),
              op_eq_of_core_eq (captureJ_core _ _ _)]
          try rfl
      · refine issue_bind_SimInv_set hn hs hget hbusy rfl rfl ?_ ?_ ?_ ?_
        · rw [name_eq_of_core_eq (captureK_core _ _ _),
              name_eq_of_core_eq (captureJ_core _ _ _)]
        · rw [busy_eq_of_core_eq (captureK_core _ _ _),
              busy_eq_of_core_eq (captureJ_core _ _ _)]
        · rw [dest_eq_of_core_eq (captureK_core _ _ _),
              dest_eq_of_core_eq (captureJ_core _ _ _)]
        · rw [op_eq_of_core_eq (captureK_core _ _ _),
              op_eq_of_core_eq (captureJ_core _ _ _)]
          try rfl
      · refine issue_bind_SimInv_set hn hs hget hbusy rfl rfl ?_ ?_ ?_ ?_
        · rw [name_eq_of_core_eq (captureK_core _ _ _),
              name_eq_of_core_eq (captureJ_core _ _ _)]
        · rw [busy_eq_of_core_eq (captureK_core _ _ _),
              busy_eq_of_core_eq (captureJ_core _ _ _)]
        · rw [dest_eq_of_core_eq (captureK_core _ _ _),
              dest_eq_of_core_eq (captureJ_core _ _ _)]
        · rw [op_eq_of_core_eq (captureK_core _ _ _),
              op_eq_of_core_eq (captureJ_core _ _ _)]
          try rfl
      · refine issue_bind_SimInv_set hn hs hget hbusy rfl rfl ?_ ?_ ?_ ?_
        · rw [name_eq_of_core_eq (captureK_core _ _ _),
              name_eq_of_core_eq (captureJ_core _ _ _)]
        · rw [busy_eq_of_core_eq (captureK_core _ _ _),
              busy_eq_of_core_eq (captureJ_core _ _ _)]
        · rw [dest_eq_of_core_eq (captureK_core _ _ _),
              dest_eq_of_core_eq (captureJ_core _ _ _)]
        · rw [op_eq_of_core_eq (captureK_core _ _ _),
              op_eq_of_core_eq (captureJ_core _ _ _)]
          try rfl
      · refine issue_bind_SimInv_set hn hs hget hbusy rfl rfl ?_ ?_ ?_ ?_
        · show ({ captureJ _ _ _ with offset := some _ } : RS).name = rs.name
          rw [show ∀ (a : RS) (o : Option Int), ({ a with offset := o } : RS).name = a.name
                from fun a o => rfl,
              name_eq_of_core_eq (captureJ_core _ _ _)]
        · show ({ captureJ _ _ _ with offset := some _ } : RS).busy = true
          rw [show ∀ (a : RS) (o : Option Int), ({ a with offset := o } : RS).busy = a.busy
                from fun a o => rfl,
              busy_eq_of_core_eq (captureJ_core _ _ _)]
        · show ({ captureJ _ _ _ with offset := some _ } : RS).dest = some _
          rw [show ∀ (a : RS) (o : Option Int), ({ a with offset := o } : RS).dest = a.dest
                from fun a o => rfl,
              dest_eq_of_core_eq (captureJ_core _ _ _)]
        · show isRegWriteOp ({ captureJ _ _ _ with offset := some _ } : RS).op = true
          rw [show ∀ (a : RS) (o : Option Int), ({ a with offset := o } : RS).op = a.op
                from fun a o => rfl,
              op_eq_of_core_eq (captureJ_core _ _ _)]
          try rfl
      · refine issue_bind_SimInv_noset hn hs hget hbusy rfl rfl ?_
        rw [show ∀ (a : RS) (o : Option Int), ({ a with offset := o } : RS).name = a.name
              from fun a o => rfl,
            name_eq_of_core_eq (captureK_core _ _ _),
            name_eq_of_core_eq (captureJ_core _ _ _)]
  · rw [if_neg hpc]
    exact ⟨hn, hs⟩

theorem tick_SimInv {s : SimState} (h : SimInv s) : SimInv (tick s).1 := by
  unfold tick
  try dsimp only
  have h1 : SimInv (writeBack { s with
      cycle := s.cycle + 1,
      metrics := updateLsBufferUtilization
        (updateRsOccupancy { s.metrics with total_cycles := s.cycle + 1 } s.stations)
        s.stations }) :=
    writeBack_SimInv (simInv_congr rfl rfl h)
  have h2 : SimInv (issue (execute (writeBack { s with
      cycle := s.cycle + 1,
      metrics := updateLsBufferUtilization
        (updateRsOccupancy { s.metrics with total_cycles := s.cycle + 1 } s.stations)
        s.stations }))).2 :=
    issue_SimInv (simInv_of_coreAgree (executeFrom_effects _ _).1 h1)
  split <;> exact h2

theorem runTicks_SimInv_of (n : Nat) :
    ∀ s : SimState, SimInv s → SimInv (runTicks s n) := by
  induction n with
  | zero => exact fun s h => h
  | succ m ih => exact fun s h => ih _ (tick_SimInv h)

theorem initState_SimInv (regs : List Int) (prog : List SimInstr) :
    SimInv (initState regs prog) := by
  constructor
  · rfl
  · intro r t h
    have : statusOf (initState regs prog) r = none := by
      unfold statusOf initState
      try dsimp only
      rw [getD_eq_get?_getD]
      exact get?_replicate_getD_none NUM_REGISTERS r
    rw [this] at h
    exact Option.noConfusion h

theorem runTicks_SimInv (regs : List Int) (prog : List SimInstr) (n : Nat) :
    SimInv (runTicks (initState regs prog) n) :=
  runTicks_SimInv_of n _ (initState_SimInv regs prog)

/-- C1 (counterexample): the claimed invariant — `status[r] ≠ None` iff
there is exactly one busy station with destination `r` — fails on a
reachable state.  Running `MUL R4,R1,R2; ADD R4,R1,R2`: after tick 2
the status of `R4` is pending while **two** busy stations have
destination `R4` (the `MUL` producer was superseded but is still
live), and after tick 5 (the `ADD` completed and cleared the status)
the status of `R4` is `None` while one busy station (`MUL1`) still has
destination `R4`. -/
theorem register_status_iff_unique_dest_station_fails :
    (statusOf (runTicks (initState regsSpec progMulAdd) 2) 4).isSome = true ∧
    ((runTicks (initState regsSpec progMulAdd) 2).stations.filter
        (fun rs => rs.busy && rs.dest == some 4)).length = 2 ∧
    statusOf (runTicks (initState regsSpec progMulAdd) 5) 4 = none ∧
    ((runTicks (initState regsSpec progMulAdd) 5).stations.filter
        (fun rs => rs.busy && rs.dest == some 4)).length = 1 := by
  exact ⟨by decide, by decide, by decide, by decide⟩

/-- C1 (amended): after every tick, for each register `r`, if the
register file's `status[r]` holds a tag `t`, then the station named `t`
exists, is busy, has destination `r`, and is the unique station with
that name.  (The converse direction of the original claim is false:
see the counterexample.) -/
theorem register_status_points_to_unique_busy_producer
    (regs : List Int) (prog : List SimInstr) (n r : Nat) (t : String)
    (h : statusOf (runTicks (initState regs prog) n) r = some t) :
    ∃ j rs, (runTicks (initState regs prog) n).stations.get? j = some rs ∧
      rs.name = t ∧ rs.busy = true ∧ rs.dest = some r ∧
      ∀ j' rs', (runTicks (initState regs prog) n).stations.get? j' = some rs' →
        rs'.name = t → j' = j := by
  obtain ⟨hn, hs⟩ := runTicks_SimInv regs prog n
  obtain ⟨j, rs, hj, hname, hbusy, hdest, hop⟩ := hs r t h
  refine ⟨j, rs, hj, hname, hbusy, hdest, fun j' rs' hj' hn' => ?_⟩
  exact station_name_unique hn hj' hj (hn'.trans hname.symm)

/-- Witness for the amended C1 at a concrete run: after tick 1 of
`ADD R4, R1, R2`, register 4's status names station `ALU1`. -/
theorem register_status_points_to_unique_busy_producer_witness :
    statusOf (runTicks (initState regsSpec progAddOnly) 1) 4 = some nmALU1 ∧
    (∃ j rs,
      (runTicks (initState regsSpec progAddOnly) 1).stations.get? j = some rs ∧
      rs.name = nmALU1 ∧ rs.busy = true ∧ rs.dest = some 4 ∧
      ∀ j' rs',
        (runTicks (initState regsSpec progAddOnly) 1).stations.get? j' = some rs' →
        rs'.name = nmALU1 → j' = j) :=
  ⟨by decide,
   register_status_points_to_unique_busy_producer regsSpec progAddOnly 1 4 nmALU1
     (by decide)⟩

/-! ## Machinery for the issue-cycle stability claim (C3) -/

theorem issueInto_frame (s : SimState) (j : Nat) (inst : SimInstr) :
    (issueInto s j inst).insts = s.insts ∧ (issueInto s j inst).pc = s.pc := by
  unfold issueInto
  rcases s.stations.get? j with _ | rs0
  · exact ⟨rfl, rfl⟩
  · rcases inst.op <;> exact ⟨rfl, rfl⟩

theorem applyCompletion_issue_pc (s : SimState) (t : String) (v : Option Int) :
    (applyCompletion s t v).pc = s.pc ∧
    ∀ i, ((applyCompletion s t v).insts.getD i default).issue_cycle =
      (s.insts.getD i default).issue_cycle := by
  unfold applyCompletion
  try dsimp only
  rcases hfind : findStationIdx s.stations t with _ | j
  · exact ⟨rfl, fun i => rfl⟩
  · try dsimp only
    rcases hget : s.stations.get? j with _ | rs
    · exact ⟨rfl, fun i => rfl⟩
    · try dsimp only
      rcases hrw : isRegWriteOp rs.op
      · exact ⟨rfl, fun i => stampComplete_issue _ _ _ i⟩
      · rcases hdest : rs.dest with _ | d
        · exact ⟨rfl, fun i => stampComplete_issue _ _ _ i⟩
        · try dsimp only
          by_cases hcond :
              statusOf { s with
                registers := s.registers.set d (v.getD 0),
                cdb := (s.cdb.broadcast t v).1,
                insts := stampComplete s.insts rs.instr s.cycle } d = some t
          · rw [if_pos hcond]
            exact ⟨rfl, fun i => stampComplete_issue _ _ _ i⟩
          · rw [if_neg hcond]
            exact ⟨rfl, fun i => stampComplete_issue _ _ _ i⟩

theorem writeBack_issue_pc (s : SimState) :
    (writeBack s).pc = s.pc ∧
    ∀ i, ((writeBack s).insts.getD i default).issue_cycle =
      (s.insts.getD i default).issue_cycle := by
  unfold writeBack
  try dsimp only
  obtain ⟨_, _, _, hinsts, hpc, _⟩ := fuTickFrom_effects
    (List.range ({ s with cdb := {} } : SimState).units.length) { s with cdb := {} }
  have hinstsA : (fuTickAll { s with cdb := {} }).1.insts = s.insts := hinsts
  have hpcA : (fuTickAll { s with cdb := {} }).1.pc = s.pc := hpc
  rcases hres : (fuTickAll { s with cdb := {} }).2 with _ | ⟨⟨t, v⟩, rest⟩
  · exact ⟨hpcA, fun i => by rw [hinstsA]⟩
  · obtain ⟨hpc', hiss'⟩ := applyCompletion_issue_pc (fuTickAll { s with cdb := {} }).1 t v
    refine ⟨hpc'.trans hpcA, fun i => ?_⟩
    rw [hiss' i, hinstsA]

theorem issue_stability_lemma {s0 : SimState} (h0 : noFutureIssue s0) :
    noFutureIssue (issue s0).2 ∧ s0.pc ≤ (issue s0).2.pc ∧
    ∀ i c, (s0.insts.getD i default).issue_cycle = some c →
      ((issue s0).2.insts.getD i default).issue_cycle = some c := by
  unfold issue
  by_cases hpc : s0.pc < s0.insts.length
  · rw [if_pos hpc]
    try dsimp only
    rcases hav : getAvailableStation s0.stations (s0.insts.getD s0.pc default).op
      with _ | j
    · exact ⟨h0, Nat.le_refl _, fun i c hc => hc⟩
    · try dsimp only
      obtain ⟨hif, hpf⟩ := issueInto_frame
        { s0 with insts := modifyIdx s0.insts s0.pc (fun ins => { ins with issue_cycle := some s0.cycle }) }
        j (s0.insts.getD s0.pc default)
      refine ⟨?_, ?_, ?_⟩
      · intro i hi
        have hi1 : (issueInto
            { s0 with insts := modifyIdx s0.insts s0.pc (fun ins => { ins with issue_cycle := some s0.cycle }) }
            j (s0.insts.getD s0.pc default)).pc + 1 ≤ i := hi
        rw [hpf] at hi1
        have hi2 : s0.pc + 1 ≤ i := hi1
        show ((issueInto _ j _).insts.getD i default).issue_cycle = none
        rw [hif]
        show ((modifyIdx s0.insts s0.pc _).getD i default).issue_cycle = none
        rw [getD_eq_get?_getD, modifyIdx_get?_ne _ _ _ _ (by omega : i ≠ s0.pc),
            ← getD_eq_get?_getD]
        exact h0 i (by omega)
      · show s0.pc ≤ (issueInto _ j _).pc + 1
        rw [hpf]
        exact Nat.le_succ _
      · intro i c hc
        have hilt : i < s0.pc := by
          by_contra hge
          rw [h0 i (Nat.le_of_not_lt hge)] at hc
          exact Option.noConfusion hc
        show ((issueInto _ j _).insts.getD i default).issue_cycle = some c
        rw [hif]
        show ((modifyIdx s0.insts s0.pc _).getD i default).issue_cycle = some c
        rw [getD_eq_get?_getD, modifyIdx_get?_ne _ _ _ _ (by omega : i ≠ s0.pc),
            ← getD_eq_get?_getD]
        exact hc
  · rw [if_neg hpc]
    exact ⟨h0, Nat.le_refl _, fun i c hc => hc⟩

theorem tick_fst (s : SimState) :
    (tick s).1 = (issue (execute (writeBack { s with
      cycle := s.cycle + 1,
      metrics := updateLsBufferUtilization
        (updateRsOccupancy { s.metrics with total_cycles := s.cycle + 1 } s.stations)
        s.stations }))).2 := by
  unfold tick
  try dsimp only
  split <;> rfl

theorem tick_issue_stability {s : SimState} (h : noFutureIssue s) :
    noFutureIssue (tick s).1 ∧
    ∀ i c, (s.insts.getD i default).issue_cycle = some c →
      ((tick s).1.insts.getD i default).issue_cycle = some c := by
  rw [tick_fst]
  set sm : SimState := { s with
      cycle := s.cycle + 1,
      metrics := updateLsBufferUtilization
        (updateRsOccupancy { s.metrics with total_cycles := s.cycle + 1 } s.stations)
        s.stations } with hsm
  obtain ⟨hwpc, hwiss⟩ := writeBack_issue_pc sm
  obtain ⟨_, _, _, hepcX, _, heissX⟩ := executeFrom_effects
    (List.range (writeBack sm).stations.length) (writeBack sm)
  have hepc : (execute (writeBack sm)).pc = (writeBack sm).pc := hepcX
  have heiss : ∀ i, ((execute (writeBack sm)).insts.getD i default).issue_cycle =
      ((writeBack sm).insts.getD i default).issue_cycle := heissX
  set se : SimState := execute (writeBack sm) with hse
  have hepc' : se.pc = s.pc := by
    rw [hse, hepc, hwpc]
  have heiss' : ∀ i, (se.insts.getD i default).issue_cycle =
      (s.insts.getD i default).issue_cycle := fun i => by
    rw [hse, heiss i, hwiss i]
  have hFse : noFutureIssue se := fun i hi => by
    rw [heiss' i]
    exact h i (by rw [← hepc']; exact hi)
  obtain ⟨m1, m2, m3⟩ := issue_stability_lemma hFse
  refine ⟨m1, fun i c hc => m3 i c (by rw [heiss' i]; exact hc)⟩

theorem runTicks_add (a b : Nat) : ∀ s : SimState,
    runTicks s (a + b) = runTicks (runTicks s a) b := by
  induction a with
  | zero => intro s; rw [Nat.zero_add]; rfl
  | succ m ih =>
    intro s
    have : m + 1 + b = (m + b) + 1 := by omega
    rw [this]
    show runTicks (tick s).1 (m + b) = runTicks (runTicks (tick s).1 m) b
    exact ih (tick s).1

theorem runTicks_noFutureIssue (n : Nat) :
    ∀ s : SimState, noFutureIssue s → noFutureIssue (runTicks s n) := by
  induction n with
  | zero => exact fun s h => h
  | succ m ih => exact fun s h => ih _ (tick_issue_stability h).1

theorem runTicks_issue_stable (k : Nat) :
    ∀ s : SimState, noFutureIssue s →
    ∀ i c, (s.insts.getD i default).issue_cycle = some c →
      ((runTicks s k).insts.getD i default).issue_cycle = some c := by
  induction k with
  | zero => exact fun s _ i c hc => hc
  | succ m ih =>
    intro s h i c hc
    exact ih (tick s).1 (tick_issue_stability h).1 i c
      ((tick_issue_stability h).2 i c hc)

/-- C3 (counterexample): the `start_cycle` timestamp can be overwritten
with a different value.  In the run of `LOAD R3,0(R0); ADD×3` the `LOAD`
and the third `ADD` finish in the same write-back phase of cycle 7; the
`ADD` wins the CDB, the `LOAD`'s station stays busy and re-executes in
the same cycle's execute phase, overwriting the `LOAD`'s `start_cycle`
stamp from 2 to 7. -/
theorem start_cycle_overwritten_on_arbitration_loss :
    ((runTicks (initState regsSpec progLoadRace) 6).insts.getD 0 default).start_cycle
      = some 2 ∧
    ((runTicks (initState regsSpec progLoadRace) 7).insts.getD 0 default).start_cycle
      = some 7 := by
  exact ⟨by decide, by decide⟩

/-- C3 (amended): the `issue_cycle` timestamp is written at most once —
once an instruction's `issue_cycle` is set it keeps that value for the
rest of the run (for any trace whose instructions start unstamped).
The `start_cycle` timestamp does not enjoy this property: it is
overwritten when the instruction's completion loses the CDB arbitration
and the station re-executes (see the counterexample).
`execute_complete_cycle` and `write_result_cycle` are stamped only in
the winning write-back, after which the station is cleared, so each is
written at most once per instruction. -/
theorem issue_cycle_never_overwritten
    (regs : List Int) (prog : List SimInstr)
    (hclean : ∀ i, (prog.getD i default).issue_cycle = none)
    (n k i : Nat) (c : Nat)
    (h : ((runTicks (initState regs prog) n).insts.getD i default).issue_cycle = some c) :
    ((runTicks (initState regs prog) (n + k)).insts.getD i default).issue_cycle = some c := by
  have h0 : noFutureIssue (initState regs prog) := fun i _ => hclean i
  rw [runTicks_add n k]
  exact runTicks_issue_stable k _ (runTicks_noFutureIssue n _ h0) i c h

/-- Witness for the amended C3: in the single-`ADD` run the
`issue_cycle` stamped at cycle 1 persists through later ticks. -/
theorem issue_cycle_never_overwritten_witness :
    (∀ i, (progAddOnly.getD i default).issue_cycle = none) ∧
    ((runTicks (initState regsSpec progAddOnly) 1).insts.getD 0 default).issue_cycle
      = some 1 ∧
    ((runTicks (initState regsSpec progAddOnly) (1 + 5)).insts.getD 0 default).issue_cycle
      = some 1 :=
  ⟨fun i => by
      rcases i with _ | i
      · rfl
      · rcases i <;> rfl,
   by decide,
   issue_cycle_never_overwritten regsSpec progAddOnly
     (fun i => by
       rcases i with _ | i
       · rfl
       · rcases i <;> rfl)
     1 5 0 1 (by decide)⟩

theorem fuTickFrom_cdb (ks : List Nat) (s : SimState) :
    (fuTickFrom s ks).1.cdb = s.cdb := by
  induction ks generalizing s with
  | nil => rfl
  | cons k ks ih =>
    obtain ⟨_, _, _, _, _, _, hcdb⟩ := fuTickUnit_effects s k
    exact (ih (fuTickUnit s k).1).trans hcdb

theorem applyCompletion_parts (s : SimState) (t : String) (v : Option Int) :
    (applyCompletion s t v).cdb = (s.cdb.broadcast t v).1 ∧
    (applyCompletion s t v).metrics.completed_instructions ≤
      s.metrics.completed_instructions + 1 ∧
    (applyCompletion s t v).stations =
      (match findStationIdx s.stations t with
       | none => s.stations
       | some j => modifyIdx (updateFromCdb s.stations t v) j RS.clear) := by
  unfold applyCompletion
  try dsimp only
  rcases hfind : findStationIdx s.stations t with _ | j
  · exact ⟨rfl, Nat.le_succ _, rfl⟩
  · try dsimp only
    rcases hget : s.stations.get? j with _ | rs
    · -- unreachable in fact, but the code shape allows it
      refine ⟨rfl, Nat.le_succ _, ?_⟩
      exact absurd hget (by
        obtain ⟨rs, hj, _⟩ := findStationIdx_spec hfind
        rw [hj]
        simp)
    · try dsimp only
      rcases hrw : isRegWriteOp rs.op
      · exact ⟨rfl, Nat.le_refl _, rfl⟩
      · rcases hdest : rs.dest with _ | d
        · exact ⟨rfl, Nat.le_refl _, rfl⟩
        · try dsimp only
          by_cases hcond :
              statusOf { s with
                registers := s.registers.set d (v.getD 0),
                cdb := (s.cdb.broadcast t v).1,
                insts := stampComplete s.insts rs.instr s.cycle } d = some t
          · rw [if_pos hcond]
            exact ⟨rfl, Nat.le_refl _, rfl⟩
          · rw [if_neg hcond]
            exact ⟨rfl, Nat.le_refl _, rfl⟩

theorem applyCompletion_nonwrite_frame (s : SimState) (t : String) (v : Option Int)
    {j : Nat} {rs : RS}
    (hfind : findStationIdx s.stations t = some j)
    (hget : s.stations.get? j = some rs)
    (hrw : isRegWriteOp rs.op = false) :
    (applyCompletion s t v).registers = s.registers ∧
    (applyCompletion s t v).regStatus = s.regStatus := by
  unfold applyCompletion
  try dsimp only
  rw [hfind]
  try dsimp only
  rw [hget]
  try dsimp only
  rw [hrw]
  exact ⟨rfl, rfl⟩

/-- C2 (confirmed): in every tick, at most one completion is processed
in the write-back phase.  If the functional units' tick returns the
completions `(t₀, v₀) :: rest`, then the whole write-back equals
processing only the first completion; only `(t₀, v₀)` is broadcast on
the CDB; `completed_instructions` grows by at most one; and every
station carrying the tag of a later (dropped) completion keeps its
`busy` flag — it is not cleared that cycle. -/
theorem write_back_processes_only_first_completion
    (s s₁ : SimState) (t₀ : String) (v₀ : Option Int)
    (rest : List (String × Option Int))
    (hft : fuTickAll { s with cdb := {} } = (s₁, (t₀, v₀) :: rest)) :
    writeBack s = applyCompletion s₁ t₀ v₀ ∧
    (writeBack s).cdb =
      { reservation_station := some t₀, value := v₀, busy := some true } ∧
    (writeBack s).metrics.completed_instructions ≤
      s.metrics.completed_instructions + 1 ∧
    ∀ tv ∈ rest, tv.1 ≠ t₀ →
      ∀ j rs, s₁.stations.get? j = some rs → rs.name = tv.1 →
        ∃ rs', (writeBack s).stations.get? j = some rs' ∧
          rs'.busy = rs.busy ∧ rs'.name = rs.name := by
  have hfst : (fuTickAll { s with cdb := {} }).1 = s₁ := congrArg Prod.fst hft
  have hwb : writeBack s = applyCompletion s₁ t₀ v₀ := by
    unfold writeBack
    try dsimp only
    rw [hft]
  obtain ⟨hacdb, hamet, hast⟩ := applyCompletion_parts s₁ t₀ v₀
  obtain ⟨_, _, hmet, _, _, _⟩ := fuTickFrom_effects
    (List.range ({ s with cdb := {} } : SimState).units.length) { s with cdb := {} }
  have hmet1 : s₁.metrics = s.metrics := by
    rw [← hfst]
    exact hmet
  have hcdb1 : s₁.cdb = ({} : CDB) := by
    rw [← hfst]
    exact fuTickFrom_cdb _ _
  refine ⟨hwb, ?_, ?_, ?_⟩
  · rw [hwb, hacdb, hcdb1]
    rfl
  · rw [hwb]
    calc (applyCompletion s₁ t₀ v₀).metrics.completed_instructions
        ≤ s₁.metrics.completed_instructions + 1 := hamet
      _ = s.metrics.completed_instructions + 1 := by rw [hmet1]
  · intro tv htv hne j rs hj hrsname
    rw [hwb, hast]
    rcases hfind : findStationIdx s₁.stations t₀ with _ | jw
    · exact ⟨rs, hj, rfl, rfl⟩
    · obtain ⟨rsW, hjw, hnameW⟩ := findStationIdx_spec hfind
      have hjne : j ≠ jw := by
        intro he
        rw [he, hjw] at hj
        have hre : rsW = rs := Option.some.inj hj
        exact hne (by rw [← hrsname, ← hre, hnameW])
      refine ⟨snoopRS t₀ v₀ rs, ?_, ?_, ?_⟩
      · rw [modifyIdx_get?_ne _ _ _ _ hjne, updateFromCdb_get?, hj]
        rfl
      · exact busy_eq_of_core_eq (snoopRS_core t₀ v₀ rs)
      · exact name_eq_of_core_eq (snoopRS_core t₀ v₀ rs)

/-- Witness for C2: a state in which both ALU units finish in the same
cycle; only the first completion (`ALU1`, value 3) reaches the CDB. -/
theorem write_back_processes_only_first_completion_witness :
    (writeBack stTwoDone).cdb =
      { reservation_station := some nmALU1, value := some 3, busy := some true } :=
  (write_back_processes_only_first_completion stTwoDone
    (fuTickAll { stTwoDone with cdb := {} }).1 nmALU1 (some 3)
    [(nmALU2, some 7)] (by decide)).2.1

/-- C7 (confirmed): write-back of a `STORE` completion leaves the
register file entirely unchanged — no register value and no status
entry is modified.  (The memory write itself happens inside the
functional unit's `compute_result`.) -/
theorem store_write_back_preserves_register_file
    (s s₁ : SimState) (t : String) (v : Option Int)
    (rest : List (String × Option Int)) (j : Nat) (rs : RS)
    (hft : fuTickAll { s with cdb := {} } = (s₁, (t, v) :: rest))
    (hfind : findStationIdx s₁.stations t = some j)
    (hget : s₁.stations.get? j = some rs)
    (hop : rs.op = some .STORE) :
    (writeBack s).registers = s.registers ∧
    (writeBack s).regStatus = s.regStatus := by
  have hfst : (fuTickAll { s with cdb := {} }).1 = s₁ := congrArg Prod.fst hft
  have hwb : writeBack s = applyCompletion s₁ t v := by
    unfold writeBack
    try dsimp only
    rw [hft]
  obtain ⟨hcore, hregs, _, _, _, _⟩ := fuTickFrom_effects
    (List.range ({ s with cdb := {} } : SimState).units.length) { s with cdb := {} }
  have hregs1 : s₁.registers = s.registers := by
    rw [← hfst]
    exact hregs
  have hstat1 : s₁.regStatus = s.regStatus := by
    rw [← hfst]
    exact hcore.1
  have hrw : isRegWriteOp rs.op = false := by
    rw [hop]
    rfl
  obtain ⟨h1, h2⟩ := applyCompletion_nonwrite_frame s₁ t v hfind hget hrw
  exact ⟨by rw [hwb, h1, hregs1], by rw [hwb, h2, hstat1]⟩

/-- Witness for C7: a lone completing `STORE` leaves registers and
statuses untouched through write-back. -/
theorem store_write_back_preserves_register_file_witness :
    (writeBack stStoreDone).registers = stStoreDone.registers ∧
    (writeBack stStoreDone).regStatus = stStoreDone.regStatus :=
  store_write_back_preserves_register_file stStoreDone
    (fuTickAll { stStoreDone with cdb := {} }).1 nmSTORE1 none [] 0 rsStoreLoser
    (by decide) (by decide) (by decide) (by decide)

/-- C10 (confirmed): when two functional units complete in the same
write-back phase, the losing station is not freed.  Generally: a
station carrying the tag of a dropped completion that is busy, no
longer executing, and has both operand slots clear survives write-back
unchanged and satisfies `isReady`, so the same cycle's execute phase
re-binds it to a free matching unit and `compute_result` runs a second
time.  Concretely, in `STORE 0(R0),R1; ADD×3` the `STORE` finishes in
cycle 7 and its memory write happens (mem[0] = 5), but the third `ADD`
wins the CDB; the `STORE` station stays busy, is immediately re-bound
(`start_cycle` restamped to 7), runs again, and its second, identical
completion wins in cycle 12 (`write_result_cycle = 12`, a second
identical write of 5 to mem[0]). -/
theorem arbitration_loser_ready_and_reexecutes :
    (∀ (s s₁ : SimState) (t₀ : String) (v₀ : Option Int)
        (rest : List (String × Option Int)) (tv : String × Option Int)
        (j : Nat) (rs : RS),
      fuTickAll { s with cdb := {} } = (s₁, (t₀, v₀) :: rest) →
      tv ∈ rest → tv.1 ≠ t₀ →
      s₁.stations.get? j = some rs → rs.name = tv.1 →
      rs.busy = true → rs.executing = false → rs.qj = none → rs.qk = none →
      (writeBack s).stations.get? j = some rs ∧ rs.isReady = true) ∧
    (stationNamed (runTicks (initState regsSpec progStoreRace) 6) nmSTORE1).executing
      = true ∧
    (stationNamed (runTicks (initState regsSpec progStoreRace) 6) nmSTORE1).execution_cycles_left
      = 1 ∧
    ((runTicks (initState regsSpec progStoreRace) 6).insts.getD 0 default).start_cycle
      = some 2 ∧
    (runTicks (initState regsSpec progStoreRace) 7).memory.getD 0 99 = 5 ∧
    (stationNamed (runTicks (initState regsSpec progStoreRace) 7) nmSTORE1).busy
      = true ∧
    ((runTicks (initState regsSpec progStoreRace) 7).insts.getD 0 default).write_result_cycle
      = none ∧
    (stationNamed (runTicks (initState regsSpec progStoreRace) 7) nmSTORE1).executing
      = true ∧
    ((runTicks (initState regsSpec progStoreRace) 7).insts.getD 0 default).start_cycle
      = some 7 ∧
    (stationNamed (runTicks (initState regsSpec progStoreRace) 12) nmSTORE1).busy
      = false ∧
    ((runTicks (initState regsSpec progStoreRace) 12).insts.getD 0 default).write_result_cycle
      = some 12 ∧
    (runTicks (initState regsSpec progStoreRace) 12).metrics.completed_instructions = 4 ∧
    (runTicks (initState regsSpec progStoreRace) 12).memory.getD 0 99 = 5 := by
  refine ⟨?_, by decide, by decide, by decide, by decide, by decide, by decide,
          by decide, by decide, by decide, by decide, by decide, by decide⟩
  intro s s₁ t₀ v₀ rest tv j rs hft htv hne hj hrsname hbusy hexec hqj hqk
  have hwb : writeBack s = applyCompletion s₁ t₀ v₀ := by
    unfold writeBack
    try dsimp only
    rw [hft]
  obtain ⟨_, _, hast⟩ := applyCompletion_parts s₁ t₀ v₀
  constructor
  · rw [hwb, hast]
    rcases hfind : findStationIdx s₁.stations t₀ with _ | jw
    · exact hj
    · obtain ⟨rsW, hjw, hnameW⟩ := findStationIdx_spec hfind
      have hjne : j ≠ jw := by
        intro he
        rw [he, hjw] at hj
        have hre : rsW = rs := Option.some.inj hj
        exact hne (by rw [← hrsname, ← hre, hnameW])
      rw [modifyIdx_get?_ne _ _ _ _ hjne, updateFromCdb_get?, hj]
      rw [Option.map_some', snoopRS_of_none hqj hqk]
  · rw [RS.isReady, hbusy, hexec, hqj, hqk]
    rfl

/-- Witness for the general part of C10: in the two-completion state
the losing `STORE` station survives write-back intact and is ready. -/
theorem arbitration_loser_ready_and_reexecutes_witness :
    (writeBack stAddStoreDone).stations.get? 1 = some rsStoreLoser ∧
    rsStoreLoser.isReady = true :=
  arbitration_loser_ready_and_reexecutes.1 stAddStoreDone
    (fuTickAll { stAddStoreDone with cdb := {} }).1 nmALU1 (some 3)
    [(nmSTORE1, none)] (nmSTORE1, none) 1 rsStoreLoser
    (by decide) (by decide) (by decide) (by decide) (by decide)
    (by decide) (by decide) (by decide) (by decide)

/-- C4 (confirmed): for the trace `ADD R4, R1, R2` with `R1 = 5` and
`R2 = 7`, the run terminates after exactly 4 cycles (ticks 1–3 continue,
tick 4 reports done); the instruction issues in cycle 1, starts
executing in cycle 2, is still executing at the end of cycle 3, and
writes back in cycle 4; the final value of `R4` is 12; and the reported
IPC is 1/4 = 0.25. -/
theorem single_add_scenario :
    (tick (initState regsSpec progAddOnly)).2 = true ∧
    (tick (runTicks (initState regsSpec progAddOnly) 1)).2 = true ∧
    (tick (runTicks (initState regsSpec progAddOnly) 2)).2 = true ∧
    (tick (runTicks (initState regsSpec progAddOnly) 3)).2 = false ∧
    (runFuel 1000 (initState regsSpec progAddOnly)).cycle = 4 ∧
    (runFuel 1000 (initState regsSpec progAddOnly)).metrics.total_cycles = 4 ∧
    regRead (runFuel 1000 (initState regsSpec progAddOnly)) 4 = 12 ∧
    (runFuel 1000 (initState regsSpec progAddOnly)).metrics.completed_instructions
      = 1 ∧
    ((runFuel 1000 (initState regsSpec progAddOnly)).insts.getD 0 default).issue_cycle
      = some 1 ∧
    ((runFuel 1000 (initState regsSpec progAddOnly)).insts.getD 0 default).start_cycle
      = some 2 ∧
    (stationNamed (runTicks (initState regsSpec progAddOnly) 2) nmALU1).executing
      = true ∧
    (stationNamed (runTicks (initState regsSpec progAddOnly) 3) nmALU1).executing
      = true ∧
    ((runFuel 1000 (initState regsSpec progAddOnly)).insts.getD 0 default).write_result_cycle
      = some 4 ∧
    (runFuel 1000 (initState regsSpec progAddOnly)).metrics.ipc = 1 / 4 := by
  refine ⟨by decide, by decide, by decide, by decide, by decide, by decide,
          by decide, by decide, by decide, by decide, by decide, by decide,
          by decide, ?_⟩
  have h1 : (runFuel 1000 (initState regsSpec progAddOnly)).metrics.completed_instructions
      = 1 := by decide
  have h2 : (runFuel 1000 (initState regsSpec progAddOnly)).metrics.total_cycles
      = 4 := by decide
  unfold Metrics.ipc
  rw [h1, h2]
  norm_num

/-- C5 (confirmed): when issue finds no free station of the
instruction's class, the whole effect of `issue` is to report no issue
and bump the structural-hazard counter: the registers, statuses,
stations, units, memory, CDB, instructions, `pc` and cycle are all
unchanged (so the same instruction is retried next tick). -/
theorem issue_structural_hazard_stall_frame
    (s : SimState) (h1 : s.pc < s.insts.length)
    (h2 : getAvailableStation s.stations (s.insts.getD s.pc default).op = none) :
    issue s = (false,
      { s with metrics := { s.metrics with
          structural_hazard_stalls := s.metrics.structural_hazard_stalls + 1 } }) := by
  unfold issue
  rw [if_pos h1]
  try dsimp only
  rw [h2]

/-- Witness for C5: all three ALU stations busy while an `ADD` waits. -/
theorem issue_structural_hazard_stall_frame_witness :
    issue stHazard = (false,
      { stHazard with metrics := { stHazard.metrics with
          structural_hazard_stalls := stHazard.metrics.structural_hazard_stalls + 1 } }) :=
  issue_structural_hazard_stall_frame stHazard (by decide) (by decide)

/-- C8 (confirmed): a `DIV` whose `vk` operand is 0 at completion time
computes 0 and logs a division-by-zero warning — no exception, the
model is total.  In the run of `DIV R1, R2, R0` (with `R0 = 0`) the
simulation continues to normal termination, writing 0 into `R1` at the
write-back of cycle 22. -/
theorem div_by_zero_yields_zero_and_warning :
    (∀ (rs : RS) (mem : List Int), rs.op = some .DIV → rs.vk = some 0 →
      computeResult .MULDIVU rs mem = (some 0, mem, [.divisionByZero rs.instr])) ∧
    regRead (runFuel 1000 (initState regsSpec progDivZero)) 1 = 0 ∧
    (runFuel 1000 (initState regsSpec progDivZero)).log
      = [.divisionByZero (some 0)] ∧
    ((runFuel 1000 (initState regsSpec progDivZero)).insts.getD 0 default).write_result_cycle
      = some 22 ∧
    (tick (runTicks (initState regsSpec progDivZero) 21)).2 = false := by
  refine ⟨fun rs mem hop hvk => ?_, by decide, by decide, by decide, by decide⟩
  unfold computeResult
  try dsimp only
  rw [hop]
  try dsimp only
  rw [hvk]
  simp

/-- Witness for the general part of C8, at a concrete `DIV` station
with `vk = 0`. -/
theorem div_by_zero_yields_zero_and_warning_witness :
    computeResult .MULDIVU
      { name := nmMUL1, kind := .MULDIVRS, busy := true, op := some .DIV,
        vj := some 7, vk := some 0, instr := some 0 } []
      = (some 0, [], [.divisionByZero (some 0)]) :=
  div_by_zero_yields_zero_and_warning.1
    { name := nmMUL1, kind := .MULDIVRS, busy := true, op := some .DIV,
      vj := some 7, vk := some 0, instr := some 0 } [] rfl rfl

/-- C9 (confirmed): out-of-range memory accesses are soft failures —
reads return 0, writes are dropped, both log a warning; in-range reads
return the stored word and in-range writes store the value (reading it
back yields the written value). -/
theorem memory_out_of_range_soft_failure (mem : List Int) (a : Int) (v : Int) :
    ((a < 0 ∨ (MEMORY_SIZE : Int) ≤ a) →
      memRead mem a = (0, [.memReadOutOfRange a]) ∧
      memWrite mem a v = (mem, [.memWriteOutOfRange a])) ∧
    (0 ≤ a → a < (MEMORY_SIZE : Int) →
      memRead mem a = (mem.getD a.toNat 0, []) ∧
      memWrite mem a v = (mem.set a.toNat v, []) ∧
      (a.toNat < mem.length →
        (memWrite mem a v).1.getD a.toNat 0 = v)) := by
  constructor
  · intro hoob
    unfold memRead memWrite
    rw [if_pos hoob, if_pos hoob]
    exact ⟨rfl, rfl⟩
  · intro h0 hlt
    have hnoob : ¬(a < 0 ∨ (MEMORY_SIZE : Int) ≤ a) := by
      push_neg
      exact ⟨h0, hlt⟩
    unfold memRead memWrite
    rw [if_neg hnoob, if_neg hnoob]
    refine ⟨rfl, rfl, fun hl => ?_⟩
    show (mem.set a.toNat v).getD a.toNat 0 = v
    rw [getD_eq_get?_getD, List.get?_set_eq, List.get?_eq_get hl]
    rfl

/-- Witness for C9 at concrete addresses (2000 is out of range for the
1024-word memory, 1 is in range). -/
theorem memory_out_of_range_soft_failure_witness :
    memRead [5, 6, 7] 2000 = (0, [.memReadOutOfRange 2000]) ∧
    memWrite [5, 6, 7] 2000 9 = ([5, 6, 7], [.memWriteOutOfRange 2000]) ∧
    memRead [5, 6, 7] 1 = (6, []) ∧
    (memWrite [5, 6, 7] 1 9).1.getD 1 0 = 9 :=
  ⟨((memory_out_of_range_soft_failure [5, 6, 7] 2000 9).1 (by decide)).1,
   ((memory_out_of_range_soft_failure [5, 6, 7] 2000 9).1 (by decide)).2,
   ((memory_out_of_range_soft_failure [5, 6, 7] 1 9).2 (by decide) (by decide)).1,
   ((memory_out_of_range_soft_failure [5, 6, 7] 1 9).2 (by decide) (by decide)).2.2
     (by decide)⟩

/-- C6 (counterexample): a single malformed line CAN abort loading.
`"ADD R1,R2"` has too few operands, so `Instruction.parse` raises an
`IndexError`, which `parse_file`'s `except ValueError` does not catch:
the whole parse aborts and the well-formed second line is lost —
whereas the well-formed line alone loads fine. -/
theorem parse_file_aborts_on_index_error_line :
    instructionParse (stripPy lineBadAdd) = .error .indexError ∧
    parse_file [lineBadAdd, lineGoodAdd] = .error .indexError ∧
    parse_file [lineGoodAdd] = .ok ([], [pinstrAdd312]) :=
  ⟨by decide, by decide, by decide⟩

/-- C6 (amended): provided no line fails with an uncaught exception
(an `IndexError` from too few operands), `parse_file` succeeds; every
line whose parse raises a `ValueError` (unknown opcode, bad offset
literal) is reported with its own line number and skipped, and all
well-formed lines load, in order. -/
theorem parse_file_reports_and_skips_value_error_lines (lines : List String) :
    ∀ k : Nat,
      (∀ l ∈ lines, effectiveLine l = true →
        instructionParse (stripPy l) ≠ .error .indexError) →
      parseFileAux k lines = .ok (logSpec k lines,
        lines.filterMap (fun l => if effectiveLine l = true then lineOk l else none)) := by
  induction lines with
  | nil => intro k h; rfl
  | cons l rest ih =>
    intro k h
    have hrest := ih (k + 1)
      (fun l' hm he => h l' (List.mem_cons_of_mem _ hm) he)
    unfold parseFileAux logSpec
    rw [List.filterMap_cons]
    rcases heff : effectiveLine l
    · exact hrest
    · try dsimp only
      rcases hp : instructionParse (stripPy l) with e | i
      · rcases e with m | _
        · have hlo : lineOk l = none := by
            unfold lineOk
            rw [hp]
          have hle : lineErrMsg l = some m := by
            unfold lineErrMsg
            rw [hp]
          rw [hrest, hlo, hle]
          rfl
        · exact absurd hp (h l (List.mem_cons_self _ _) heff)
      · have hlo : lineOk l = some i := by
          unfold lineOk
          rw [hp]
        have hle : lineErrMsg l = none := by
          unfold lineErrMsg
          rw [hp]
        rw [hrest, hlo, hle]
        rfl

/-- Witness for the amended C6: a good line, an unknown-opcode line, a
comment and a blank line — the bad line is reported as line 2 and
skipped, the good line loads. -/
theorem parse_file_reports_and_skips_value_error_lines_witness :
    parseFileAux 1 [lineGoodAdd, lineFoo, lineComment] = .ok
      (logSpec 1 [lineGoodAdd, lineFoo, lineComment],
        [lineGoodAdd, lineFoo, lineComment].filterMap
          (fun l => if effectiveLine l = true then lineOk l else none)) ∧
    logSpec 1 [lineGoodAdd, lineFoo, lineComment] = [(2, msgUnknownOp strFOO)] ∧
    [lineGoodAdd, lineFoo, lineComment].filterMap
      (fun l => if effectiveLine l = true then lineOk l else none) = [pinstrAdd312] :=
  ⟨parse_file_reports_and_skips_value_error_lines
      [lineGoodAdd, lineFoo, lineComment] 1 (by decide),
   by decide, by decide⟩
